import Mathlib

/-!
Verification development for the myossh shell (process and job control core).

Shallow embedding of:
  - src/process_subsystem.py : the persistent job table (ProcessStore), the
    job-control facade (JobControl.run / fg / bg / stop / kill) and the
    SIGCHLD reaper (JobControl._sigchld);
  - src/external_runner.py   : resolve_executable / run_external;
  - src/Repl.py              : handle_redirections and execute_pipeline.

Conventions of the embedding:
  - SQLite rows become a Lean list of PCB records; the WHERE pid=? update
    becomes a map over the list patching the rows whose pid matches.
  - OS interactions (Popen, os.killpg, os.waitpid, wall-clock time) are
    passed in explicitly: a Popen outcome is an Option, killpg success is
    a Bool (false models ProcessLookupError), child state changes are an
    explicit event type, and time.time() values are Int parameters.
  - Exceptions that propagate out of a function are modelled with Except;
    the carried string names the Python exception or message.
-/

/-- Valid process states, from the Status literal of process_subsystem.py. -/
inductive Status where
  | running
  | stopped
  | done
  | failed
deriving DecidableEq, Repr

/-- Process Control Block, mirroring the PCB dataclass and the columns of the
processes table (pid is the primary key). Times are modelled as Int. -/
structure PCB where
  pid : Int
  jid : Int
  pgid : Int
  cmd : String
  status : Status
  foreground : Bool
  start_time : Int
  end_time : Option Int := none
  exit_code : Option Int := none
  notes : Option String := none
deriving DecidableEq, Repr

/-- State of the ProcessStore database: the value of the jid sequence row
and the rows of the processes table. -/
structure StoreState where
  seqV : Int
  rows : List PCB
deriving DecidableEq, Repr

/-- ProcessStore.next_jid: UPDATE seq SET v=v+1 WHERE k=jid RETURNING v.
Returns the incremented value together with the new store state. -/
def ProcessStore.next_jid (s : StoreState) : Int × StoreState :=
  (s.seqV + 1, { s with seqV := s.seqV + 1 })

/-- The ON CONFLICT(pid) DO UPDATE clause of ProcessStore.upsert: only
status, foreground, end_time, exit_code and notes take the new values. -/
def upsertRow (pcb : PCB) (r : PCB) : PCB :=
  if r.pid == pcb.pid then
    { r with status := pcb.status, foreground := pcb.foreground,
             end_time := pcb.end_time, exit_code := pcb.exit_code,
             notes := pcb.notes }
  else r

/-- ProcessStore.upsert: INSERT .. ON CONFLICT(pid) DO UPDATE.
If a row with the pid exists it is patched by the DO UPDATE clause,
otherwise the full new row is inserted. -/
def ProcessStore.upsert (s : StoreState) (pcb : PCB) : StoreState :=
  if s.rows.any (fun r => r.pid == pcb.pid) then
    { s with rows := s.rows.map (upsertRow pcb) }
  else
    { s with rows := s.rows ++ [pcb] }

/-- UPDATE processes SET status=? WHERE pid=? (ProcessStore.update with a
status field only, as called from bg, stop and the stopped and continued
branches of the SIGCHLD handler). -/
def setStatus (st : Status) (r : PCB) : PCB := { r with status := st }

/-- ProcessStore.update with status, end_time and exit_code fields, as
called from JobControl.run, JobControl.fg and the exited branch of the
SIGCHLD handler. -/
def setStatusEndExit (st : Status) (t rc : Int) (r : PCB) : PCB :=
  { r with status := st, end_time := some t, exit_code := some rc }

/-- ProcessStore.update with status, end_time and notes fields, as called
from the signaled branch of the SIGCHLD handler. Note that exit_code is
not among the updated columns. -/
def setStatusEndNotes (st : Status) (t : Int) (n : String) (r : PCB) : PCB :=
  { r with status := st, end_time := some t, notes := some n }

/-- Generic form of ProcessStore.update: patch the rows whose pid matches
(pid is the primary key, so at most one row matches in practice). -/
def updatePid (s : StoreState) (pid : Int) (f : PCB → PCB) : StoreState :=
  { s with rows := s.rows.map (fun r => if r.pid == pid then f r else r) }

/-- Operations that touch the ProcessStore over a session.  alloc is
ProcessStore.next_jid; the upsert and update operations are the store
mutations issued by JobControl; removeOp models deletion of a job record
from the table (the removal of a finished job). -/
inductive StoreOp where
  | alloc
  | upsertOp (pcb : PCB)
  | updateStatusOp (pid : Int) (st : Status)
  | updateExitOp (pid : Int) (st : Status) (t rc : Int)
  | updateNotesOp (pid : Int) (st : Status) (t : Int) (n : String)
  | removeOp (pid : Int)
deriving DecidableEq, Repr

/-- Effect of one store operation on the store state. -/
def applyStoreOp (s : StoreState) : StoreOp → StoreState
  | .alloc => (ProcessStore.next_jid s).2
  | .upsertOp pcb => ProcessStore.upsert s pcb
  | .updateStatusOp pid st => updatePid s pid (setStatus st)
  | .updateExitOp pid st t rc => updatePid s pid (setStatusEndExit st t rc)
  | .updateNotesOp pid st t n => updatePid s pid (setStatusEndNotes st t n)
  | .removeOp pid => { s with rows := s.rows.filter (fun r => r.pid != pid) }

/-- The sequence of job ids returned by the alloc (next_jid) calls of an
operation sequence, in order. -/
def allocatedJids (s : StoreState) : List StoreOp → List Int
  | [] => []
  | .alloc :: ops => (s.seqV + 1) :: allocatedJids (applyStoreOp s .alloc) ops
  | op :: ops => allocatedJids (applyStoreOp s op) ops

theorem seqV_applyStoreOp (s : StoreState) (op : StoreOp) :
    s.seqV ≤ (applyStoreOp s op).seqV := by
  cases op with
  | alloc => simp [applyStoreOp, ProcessStore.next_jid]
  | upsertOp pcb =>
    simp only [applyStoreOp, ProcessStore.upsert]
    split <;> simp
  | updateStatusOp pid st => simp [applyStoreOp, updatePid]
  | updateExitOp pid st t rc => simp [applyStoreOp, updatePid]
  | updateNotesOp pid st t n => simp [applyStoreOp, updatePid]
  | removeOp pid => simp [applyStoreOp]

theorem allocatedJids_gt (ops : List StoreOp) :
    ∀ s : StoreState, ∀ v ∈ allocatedJids s ops, s.seqV < v := by
  induction ops with
  | nil => intro s v hv; simp [allocatedJids] at hv
  | cons op ops ih =>
    intro s v hv
    cases op with
    | alloc =>
      simp only [allocatedJids, List.mem_cons] at hv
      rcases hv with h | h
      · omega
      · have := ih _ v h
        simp [applyStoreOp, ProcessStore.next_jid] at this
        omega
    | upsertOp pcb =>
      simp only [allocatedJids] at hv
      have h1 := ih _ v hv
      have h2 := seqV_applyStoreOp s (.upsertOp pcb)
      omega
    | updateStatusOp pid st =>
      simp only [allocatedJids] at hv
      have h1 := ih _ v hv
      have h2 := seqV_applyStoreOp s (.updateStatusOp pid st)
      omega
    | updateExitOp pid st t rc =>
      simp only [allocatedJids] at hv
      have h1 := ih _ v hv
      have h2 := seqV_applyStoreOp s (.updateExitOp pid st t rc)
      omega
    | updateNotesOp pid st t n =>
      simp only [allocatedJids] at hv
      have h1 := ih _ v hv
      have h2 := seqV_applyStoreOp s (.updateNotesOp pid st t n)
      omega
    | removeOp pid =>
      simp only [allocatedJids] at hv
      have h1 := ih _ v hv
      have h2 := seqV_applyStoreOp s (.removeOp pid)
      omega

/-- Claim C2: job ids are strictly increasing over a session and are never
reused.  For any interleaving of next_jid allocations with upserts, updates
and removals, every value returned by an allocation is strictly greater
than every value returned by any earlier allocation. -/
theorem next_jid_strictly_increasing (s : StoreState) (ops : List StoreOp) :
    List.Pairwise (fun a b => a < b) (allocatedJids s ops) := by
  induction ops generalizing s with
  | nil => simp [allocatedJids]
  | cons op ops ih =>
    cases op with
    | alloc =>
      simp only [allocatedJids]
      refine List.Pairwise.cons ?_ (ih _)
      intro v hv
      have := allocatedJids_gt ops _ v hv
      simp [applyStoreOp, ProcessStore.next_jid] at this
      omega
    | upsertOp pcb => exact ih _
    | updateStatusOp pid st => exact ih _
    | updateExitOp pid st t rc => exact ih _
    | updateNotesOp pid st t n => exact ih _
    | removeOp pid => exact ih _

/-- Find a row by pid (pid is the primary key of the processes table). -/
def rowOf (s : StoreState) (pid : Int) : Option PCB :=
  s.rows.find? (fun r => r.pid == pid)

/-- Claim C10: upserting a PCB whose pid already has a row updates only the
status, foreground, end_time, exit_code and notes columns of that row;
jid, pgid, cmd and start_time keep their previous values, the jid sequence
is untouched, and no row is inserted or deleted. -/
theorem find?_map_pres {α : Type} (g : α → α) (p : α → Bool)
    (hp : ∀ r, p (g r) = p r) :
    ∀ l : List α, (l.map g).find? p = (l.find? p).map g := by
  intro l
  induction l with
  | nil => rfl
  | cons r rs ih =>
    cases hr : p r with
    | true => simp [List.find?_cons, hp, hr]
    | false => simp [List.find?_cons, hp, hr, ih]

theorem upsert_identity_immutable (s : StoreState) (pcb old : PCB)
    (h : rowOf s pcb.pid = some old) :
    ∃ r', rowOf (ProcessStore.upsert s pcb) pcb.pid = some r' ∧
      r'.jid = old.jid ∧ r'.pgid = old.pgid ∧ r'.cmd = old.cmd ∧
      r'.start_time = old.start_time ∧
      r'.status = pcb.status ∧ r'.foreground = pcb.foreground ∧
      r'.end_time = pcb.end_time ∧ r'.exit_code = pcb.exit_code ∧
      r'.notes = pcb.notes ∧
      (ProcessStore.upsert s pcb).seqV = s.seqV ∧
      (ProcessStore.upsert s pcb).rows.length = s.rows.length := by
  have h' : s.rows.find? (fun r => r.pid == pcb.pid) = some old := h
  have hmem : old ∈ s.rows := List.mem_of_find?_eq_some h'
  have hpid : (old.pid == pcb.pid) = true := by
    simpa using List.find?_some h'
  have hany : s.rows.any (fun r => r.pid == pcb.pid) = true := by
    rw [List.any_eq_true]
    exact ⟨old, hmem, hpid⟩
  have hg : ∀ r : PCB, ((upsertRow pcb r).pid == pcb.pid) = (r.pid == pcb.pid) := by
    intro r
    simp only [upsertRow]
    split <;> rfl
  refine ⟨upsertRow pcb old, ?_, ?_, ?_, ?_, ?_, ?_, ?_, ?_, ?_, ?_, ?_, ?_⟩
  · show (ProcessStore.upsert s pcb).rows.find? (fun r => r.pid == pcb.pid) = _
    simp only [ProcessStore.upsert, hany, if_true]
    rw [find?_map_pres (upsertRow pcb) _ hg, h']
    rfl
  all_goals simp [ProcessStore.upsert, hany, upsertRow, hpid]

/-- Witness for C10: a concrete store with a single row and an upsert that
changes every field of the incoming PCB; the identity columns survive. -/
theorem upsert_identity_immutable_witness :
    rowOf ⟨3, [⟨10, 1, 10, "sleep 5", Status.running, true, 0, none, none, none⟩]⟩ 10 =
      some ⟨10, 1, 10, "sleep 5", Status.running, true, 0, none, none, none⟩ ∧
    ∃ r', rowOf (ProcessStore.upsert
        ⟨3, [⟨10, 1, 10, "sleep 5", Status.running, true, 0, none, none, none⟩]⟩
        ⟨10, 99, 77, "other", Status.done, false, 42, some 43, some 0, some "n"⟩) 10 =
        some r' ∧
      r'.jid = 1 ∧ r'.pgid = 10 ∧ r'.cmd = "sleep 5" ∧ r'.start_time = 0 ∧
      r'.status = Status.done ∧ r'.foreground = false ∧
      r'.end_time = some 43 ∧ r'.exit_code = some 0 ∧ r'.notes = some "n" ∧
      (ProcessStore.upsert
        ⟨3, [⟨10, 1, 10, "sleep 5", Status.running, true, 0, none, none, none⟩]⟩
        ⟨10, 99, 77, "other", Status.done, false, 42, some 43, some 0, some "n"⟩).seqV = 3 ∧
      (ProcessStore.upsert
        ⟨3, [⟨10, 1, 10, "sleep 5", Status.running, true, 0, none, none, none⟩]⟩
        ⟨10, 99, 77, "other", Status.done, false, 42, some 43, some 0, some "n"⟩).rows.length = 1 := by
  constructor
  · decide
  · exact upsert_identity_immutable _
      ⟨10, 99, 77, "other", Status.done, false, 42, some 43, some 0, some "n"⟩
      ⟨10, 1, 10, "sleep 5", Status.running, true, 0, none, none, none⟩ (by decide)

/-- Linux signal numbers used by process_subsystem.py. -/
def SIGINT : Int := 2

/-- signal.SIGCONT on Linux. -/
def SIGCONT : Int := 18

/-- signal.SIGSTOP on Linux. -/
def SIGSTOP : Int := 19

/-- signal.SIGTERM on Linux (the default signal of JobControl.kill). -/
def SIGTERM : Int := 15

/-- Runtime state of a JobControl instance: its persistent store plus the
pids of the locally cached Popen objects (the _children dict). -/
structure JCState where
  store : StoreState
  children : List Int
deriving DecidableEq, Repr

/-- JobControl._by_jid: scan the job table for the row with the given job
id (list() orders rows by jid; with unique jids the order is irrelevant
and the first matching row is returned). -/
def JobControl.by_jid (s : JCState) (jid : Int) : Option PCB :=
  s.store.rows.find? (fun r => r.jid == jid)

/-- Result of a job-control action: the new state, the (pgid, signal)
pairs handed to os.killpg in order, and the printed lines. -/
structure OpOut where
  state : JCState
  sent : List (Int × Int)
  msgs : List String
deriving DecidableEq, Repr

/-- Injection used to derive decidable equality for Except values. -/
def exceptToSum {α β : Type} : Except α β → Sum α β
  | .error e => .inl e
  | .ok v => .inr v

instance {α β : Type} [DecidableEq α] [DecidableEq β] :
    DecidableEq (Except α β) := fun a b =>
  decidable_of_iff (exceptToSum a = exceptToSum b)
    (by cases a <;> cases b <;> simp [exceptToSum])

/-- Result of JobControl.run: the value returned or the exception raised,
the new state, and the printed lines. -/
structure RunOut where
  res : Except String Int
  state : JCState
  msgs : List String
deriving DecidableEq, Repr

/-- JobControl.run.  popenRes is the outcome of subprocess.Popen: none
models FileNotFoundError (which the function re-raises before touching
the store), some (pid, pgid) a started child.  waitRc is the exit status
observed by p.wait() on the foreground path, t0 and t1 the two time.time()
readings.  The KeyboardInterrupt branch of the foreground wait only
forwards SIGINT and waits again, which is absorbed into waitRc. -/
def JobControl.run (s : JCState) (argv : List String) (background : Bool)
    (popenRes : Option (Int × Int)) (waitRc t0 t1 : Int) : RunOut :=
  if argv.isEmpty then ⟨.error "ValueError: run(): empty argv", s, []⟩
  else
    match popenRes with
    | none => ⟨.error "FileNotFoundError", s, []⟩
    | some (pid, pgid) =>
      let alloc := ProcessStore.next_jid s.store
      let jid := alloc.1
      let store2 := ProcessStore.upsert alloc.2
        ⟨pid, jid, pgid, String.intercalate " " argv, .running, !background, t0,
          none, none, none⟩
      let s1 : JCState := ⟨store2, s.children ++ [pid]⟩
      if background then ⟨.ok pid, s1, [s!"[{jid}] {pid}"]⟩
      else
        let st : Status := if waitRc == 0 then .done else .failed
        ⟨.ok pid, ⟨updatePid s1.store pid (setStatusEndExit st t1 waitRc),
          s1.children⟩, []⟩

/-- JobControl.fg.  pgAlive models whether os.killpg can deliver to the
process group (false raises ProcessLookupError, which fg does not catch,
so it propagates as an error without touching the store).  waitRc is the
status from p.wait(), now the time.time() reading. -/
def JobControl.fg (s : JCState) (jid : Int) (pgAlive : Bool)
    (waitRc now : Int) : Except String OpOut :=
  match JobControl.by_jid s jid with
  | none => .ok ⟨s, [], [s!"fg: job {jid} not found"]⟩
  | some pr =>
    if s.children.contains pr.pid then
      if pgAlive then
        let st : Status := if waitRc == 0 then Status.done else Status.failed
        .ok ⟨⟨updatePid s.store pr.pid (setStatusEndExit st now waitRc),
          s.children⟩, [(pr.pgid, SIGCONT)], []⟩
      else .error "ProcessLookupError"
    else .ok ⟨s, [], [s!"fg: job {jid} not running"]⟩

/-- JobControl.bg: continue a job in the background.  A dead process group
(pgAlive = false) raises ProcessLookupError, which bg catches before the
store update. -/
def JobControl.bg (s : JCState) (jid : Int) (pgAlive : Bool) : OpOut :=
  match JobControl.by_jid s jid with
  | none => ⟨s, [], [s!"bg: job {jid} not found"]⟩
  | some pr =>
    if pgAlive then
      ⟨⟨updatePid s.store pr.pid (setStatus .running), s.children⟩,
        [(pr.pgid, SIGCONT)], [s!"[{pr.jid}] {pr.pid} continued in background"]⟩
    else ⟨s, [(pr.pgid, SIGCONT)], [s!"bg: process group {pr.pgid} not found"]⟩

/-- JobControl.stop: send SIGSTOP to a job and mark it stopped; a dead
process group raises ProcessLookupError, caught before the update. -/
def JobControl.stop (s : JCState) (jid : Int) (pgAlive : Bool) : OpOut :=
  match JobControl.by_jid s jid with
  | none => ⟨s, [], [s!"stop: job {jid} not found"]⟩
  | some pr =>
    if pgAlive then
      ⟨⟨updatePid s.store pr.pid (setStatus .stopped), s.children⟩,
        [(pr.pgid, SIGSTOP)], [s!"[{pr.jid}] {pr.pid} stopped"]⟩
    else ⟨s, [(pr.pgid, SIGSTOP)], [s!"stop: process group {pr.pgid} not found"]⟩

/-- JobControl.kill: send the given signal to the process group of the
job.  The store is never written on any path of this function. -/
def JobControl.kill (s : JCState) (jid : Int) (sig : Int) (pgAlive : Bool) : OpOut :=
  match JobControl.by_jid s jid with
  | none => ⟨s, [], [s!"kill: job {jid} not found"]⟩
  | some pr =>
    if pgAlive then
      ⟨s, [(pr.pgid, sig)], [s!"[{pr.jid}] {pr.pid} signaled {sig}"]⟩
    else ⟨s, [(pr.pgid, sig)], [s!"kill: process group {pr.pgid} not found"]⟩

/-- One child state change reported by os.waitpid in the SIGCHLD handler. -/
inductive ChildEvent where
  | exited (pid rc : Int)
  | signaled (pid sg : Int)
  | stoppedEv (pid : Int)
  | continuedEv (pid : Int)
deriving DecidableEq, Repr

/-- The body of the reaping loop of JobControl._sigchld for one waitpid
result: exited children are recorded done or failed with their exit code,
signal-killed children are recorded failed with a note (exit_code is not
among the updated columns), stopped and continued children change status
only.  Exited and signal-killed children are dropped from _children. -/
def JobControl.sigchldOne (s : JCState) (ev : ChildEvent) (now : Int) : JCState :=
  match ev with
  | .exited pid rc =>
    ⟨updatePid s.store pid
        (setStatusEndExit (if rc == 0 then .done else .failed) now rc),
      s.children.filter (fun c => c != pid)⟩
  | .signaled pid sg =>
    ⟨updatePid s.store pid
        (setStatusEndNotes .failed now (s!"killed by signal {sg}")),
      s.children.filter (fun c => c != pid)⟩
  | .stoppedEv pid => ⟨updatePid s.store pid (setStatus .stopped), s.children⟩
  | .continuedEv pid => ⟨updatePid s.store pid (setStatus .running), s.children⟩

/-- JobControl._sigchld: drain all outstanding child state changes. -/
def JobControl.sigchld (s : JCState) (evs : List ChildEvent) (now : Int) : JCState :=
  evs.foldl (fun acc ev => JobControl.sigchldOne acc ev now) s

theorem rowOf_updatePid (s : StoreState) (pid : Int) (f : PCB → PCB)
    (hf : ∀ r, (f r).pid = r.pid) (pr : PCB) (h : rowOf s pid = some pr) :
    rowOf (updatePid s pid f) pid = some (f pr) := by
  have h' : s.rows.find? (fun r => r.pid == pid) = some pr := h
  have hp : (pr.pid == pid) = true := by simpa using List.find?_some h'
  have hmap := find?_map_pres (fun r => if r.pid == pid then f r else r)
    (fun r => r.pid == pid)
    (fun r => by by_cases hc : (r.pid == pid) = true <;> simp [hc, hf]) s.rows
  show (updatePid s pid f).rows.find? (fun r => r.pid == pid) = some (f pr)
  rw [show (updatePid s pid f).rows =
      s.rows.map (fun r => if r.pid == pid then f r else r) from rfl, hmap, h']
  have hpe : pr.pid = pid := by simpa using hp
  simp [hpe]

/-- Claim C5: fg, bg, stop and kill on a job id absent from the Job Table
print a not-found diagnostic naming that id and leave the whole state
unchanged: no row inserted, updated or removed, the jid sequence and the
children cache untouched, and no signal sent. -/
theorem unknown_jid_noop (s : JCState) (jid : Int)
    (h : ∀ r ∈ s.store.rows, r.jid ≠ jid) :
    (∀ pgAlive waitRc now, JobControl.fg s jid pgAlive waitRc now =
        .ok ⟨s, [], [s!"fg: job {jid} not found"]⟩)
    ∧ (∀ pgAlive, JobControl.bg s jid pgAlive =
        ⟨s, [], [s!"bg: job {jid} not found"]⟩)
    ∧ (∀ pgAlive, JobControl.stop s jid pgAlive =
        ⟨s, [], [s!"stop: job {jid} not found"]⟩)
    ∧ (∀ sig pgAlive, JobControl.kill s jid sig pgAlive =
        ⟨s, [], [s!"kill: job {jid} not found"]⟩) := by
  have hb : JobControl.by_jid s jid = none := by
    rw [JobControl.by_jid, List.find?_eq_none]
    intro r hr
    simpa using h r hr
  refine ⟨?_, ?_, ?_, ?_⟩ <;> intros <;>
    simp [JobControl.fg, JobControl.bg, JobControl.stop, JobControl.kill, hb]

/-- Concrete one-job state used by the C5 witness: only jid 1 exists. -/
def s5w : JCState :=
  ⟨⟨7, [⟨10, 1, 10, "sleep 5", Status.running, false, 0, none, none, none⟩]⟩, [10]⟩

/-- Witness for C5 at jid 2, absent from the table of s5w. -/
theorem unknown_jid_noop_witness :
    JobControl.stop s5w 2 true = ⟨s5w, [], ["stop: job 2 not found"]⟩ ∧
    JobControl.kill s5w 2 15 true = ⟨s5w, [], ["kill: job 2 not found"]⟩ :=
  ⟨(unknown_jid_noop s5w 2 (by decide)).2.2.1 true,
   (unknown_jid_noop s5w 2 (by decide)).2.2.2 15 true⟩

/-- Claim C9: for a job id present in the table, kill(jid, sig) hands
exactly (pgid, sig) of that job to os.killpg and modifies nothing else:
the state (job table rows, jid sequence, children cache) is returned
unchanged on both the delivered and the dead-process-group paths; any
status change comes only from the separate SIGCHLD path. -/
theorem kill_frame (s : JCState) (jid sig : Int) (pgAlive : Bool) (pr : PCB)
    (h : JobControl.by_jid s jid = some pr) :
    (JobControl.kill s jid sig pgAlive).state = s ∧
    (JobControl.kill s jid sig pgAlive).sent = [(pr.pgid, sig)] := by
  cases pgAlive <;> simp [JobControl.kill, h]

/-- Witness for C9 on the concrete state s5w, job 1. -/
theorem kill_frame_witness :
    (JobControl.kill s5w 1 15 true).state = s5w ∧
    (JobControl.kill s5w 1 15 true).sent = [(10, 15)] :=
  kill_frame s5w 1 15 true
    ⟨10, 1, 10, "sleep 5", Status.running, false, 0, none, none, none⟩ (by decide)

/-- Concrete one-job running state used for claim C8. -/
def s8 : JCState :=
  ⟨⟨1, [⟨7, 1, 7, "sleep 100", Status.running, false, 0, none, none, none⟩]⟩, [7]⟩

/-- Claim C8 counterexample: reaping the child of s8 after it is killed by
signal 2 marks the row failed but leaves exit_code at none; the claimed
value 128 + 2 = 130 is not stored anywhere. -/
theorem sigchld_signaled_no_exit_code :
    (rowOf (JobControl.sigchld s8 [ChildEvent.signaled 7 2] 5).store 7).map
        (fun r => r.status) = some Status.failed ∧
    (rowOf (JobControl.sigchld s8 [ChildEvent.signaled 7 2] 5).store 7).map
        (fun r => r.exit_code) = some none ∧
    (rowOf (JobControl.sigchld s8 [ChildEvent.signaled 7 2] 5).store 7).map
        (fun r => r.exit_code) ≠ some (some (128 + 2)) := by
  refine ⟨?_, ?_, ?_⟩ <;> decide

/-- Claim C8 amended: when a child is terminated by a signal the reaper
records the job as failed with end_time set and the note
killed by signal N; the exit_code column is not updated (in particular it
is not set to 128 plus the signal number). -/
theorem sigchld_signaled_amended (s : JCState) (pid sg now : Int) (pr : PCB)
    (h : rowOf s.store pid = some pr) :
    rowOf (JobControl.sigchldOne s (ChildEvent.signaled pid sg) now).store pid =
      some { pr with status := Status.failed, end_time := some now,
                     notes := some (s!"killed by signal {sg}") } := by
  have := rowOf_updatePid s.store pid
    (setStatusEndNotes Status.failed now (s!"killed by signal {sg}"))
    (fun r => rfl) pr h
  simpa [JobControl.sigchldOne, setStatusEndNotes] using this

/-- Witness for the amended C8 on the concrete state s8. -/
theorem sigchld_signaled_amended_witness :
    rowOf (JobControl.sigchldOne s8 (ChildEvent.signaled 7 9) 5).store 7 =
      some ⟨7, 1, 7, "sleep 100", Status.failed, false, 0, some 5, none,
        some "killed by signal 9"⟩ := by
  have := sigchld_signaled_amended s8 7 9 5
    ⟨7, 1, 7, "sleep 100", Status.running, false, 0, none, none, none⟩ (by decide)
  simpa using this

/-- Concrete one-job running state used for claim C4. -/
def s4 : JCState :=
  ⟨⟨1, [⟨5, 1, 5, "sleep 100", Status.running, false, 0, none, none, none⟩]⟩, [5]⟩

/-- Claim C4 counterexample: fg on job 1 of s4 completes (SIGCONT sent, rc
0 recorded, status done) but the job is still present in the table
afterwards: fg never removes rows, contradicting the removal part of the
claim. -/
theorem fg_leaves_row_in_table :
    JobControl.fg s4 1 true 0 9 =
      Except.ok ⟨⟨⟨1, [⟨5, 1, 5, "sleep 100", Status.done, false, 0, some 9,
        some 0, none⟩]⟩, [5]⟩, [(5, SIGCONT)], []⟩ ∧
    (JobControl.fg s4 1 true 0 9).toOption.map
        (fun o => (JobControl.by_jid o.state 1).isSome) = some true := by
  refine ⟨?_, ?_⟩ <;> decide

/-- Claim C4 amended: fg(id) on a job present in the table whose pid is in
the children cache and whose process group is alive sends SIGCONT to the
pgid, waits, and updates the row to done (rc 0) or failed (rc nonzero)
with exit code and end time recorded; the row remains in the table (it is
not removed, and the table size is unchanged).  If the pid is not in the
children cache, fg prints a not-running diagnostic and changes nothing. -/
theorem fg_amended (s : JCState) (jid : Int) (pr : PCB) (waitRc now : Int)
    (h : JobControl.by_jid s jid = some pr)
    (hrow : rowOf s.store pr.pid = some pr) :
    (s.children.contains pr.pid = true →
      JobControl.fg s jid true waitRc now =
        .ok ⟨⟨updatePid s.store pr.pid
            (setStatusEndExit (if waitRc == 0 then Status.done else Status.failed)
              now waitRc), s.children⟩, [(pr.pgid, SIGCONT)], []⟩ ∧
      rowOf (updatePid s.store pr.pid
          (setStatusEndExit (if waitRc == 0 then Status.done else Status.failed)
            now waitRc)) pr.pid =
        some { pr with
          status := if waitRc == 0 then Status.done else Status.failed,
          end_time := some now, exit_code := some waitRc } ∧
      (updatePid s.store pr.pid
          (setStatusEndExit (if waitRc == 0 then Status.done else Status.failed)
            now waitRc)).rows.length = s.store.rows.length) ∧
    (s.children.contains pr.pid = false →
      JobControl.fg s jid true waitRc now =
        .ok ⟨s, [], [s!"fg: job {jid} not running"]⟩) := by
  constructor
  · intro hc
    have hc' : pr.pid ∈ s.children := by simpa using hc
    refine ⟨by simp [JobControl.fg, h, hc'], ?_, by simp [updatePid]⟩
    have := rowOf_updatePid s.store pr.pid
      (setStatusEndExit (if waitRc == 0 then Status.done else Status.failed)
        now waitRc) (fun r => rfl) pr hrow
    simpa [setStatusEndExit] using this
  · intro hc
    have hc' : pr.pid ∉ s.children := by simpa using hc
    simp [JobControl.fg, h, hc']

/-- Witness for the amended C4 on the concrete state s4, job 1, rc 7. -/
theorem fg_amended_witness :
    JobControl.fg s4 1 true 7 9 =
      .ok ⟨⟨updatePid s4.store 5
          (setStatusEndExit (if (7 : Int) == 0 then Status.done else Status.failed)
            9 7), s4.children⟩, [(5, SIGCONT)], []⟩ ∧
    (updatePid s4.store 5
        (setStatusEndExit (if (7 : Int) == 0 then Status.done else Status.failed)
          9 7)).rows.length = s4.store.rows.length := by
  have hm := fg_amended s4 1
    ⟨5, 1, 5, "sleep 100", Status.running, false, 0, none, none, none⟩ 7 9
    (by decide) (by decide)
  exact ⟨(hm.1 (by decide)).1, (hm.1 (by decide)).2.2⟩

/-- Terminal statuses of the job state machine. -/
def isTerminal : Status → Bool
  | .done => true
  | .failed => true
  | _ => false

/-- Status of the row with the given pid, if any. -/
def statusOfPid (s : JCState) (p : Int) : Option Status :=
  (rowOf s.store p).map (fun r => r.status)

/-- The transitions Running to Stopped, Stopped to Running and Running or
Stopped to Done or Failed of the specified job state machine. -/
def statusEdge : Status → Status → Bool
  | .running, .stopped => true
  | .stopped, .running => true
  | .running, .done => true
  | .running, .failed => true
  | .stopped, .done => true
  | .stopped, .failed => true
  | _, _ => false

/-- One operation of the job-control facade together with the OS responses
it observes (Popen outcome, killpg deliverability, wait status, times). -/
inductive JCOp where
  | opRun (argv : List String) (background : Bool)
      (popenRes : Option (Int × Int)) (waitRc t0 t1 : Int)
  | opFg (jid : Int) (pgAlive : Bool) (waitRc now : Int)
  | opBg (jid : Int) (pgAlive : Bool)
  | opStop (jid : Int) (pgAlive : Bool)
  | opKill (jid sig : Int) (pgAlive : Bool)
  | opSigchld (ev : ChildEvent) (now : Int)
deriving DecidableEq, Repr

/-- State reached after one facade operation (an uncaught exception leaves
the state as it was). -/
def step (s : JCState) : JCOp → JCState
  | .opRun argv bg popenRes rc t0 t1 => (JobControl.run s argv bg popenRes rc t0 t1).state
  | .opFg jid alive rc now =>
    match JobControl.fg s jid alive rc now with
    | .ok o => o.state
    | .error _ => s
  | .opBg jid alive => (JobControl.bg s jid alive).state
  | .opStop jid alive => (JobControl.stop s jid alive).state
  | .opKill jid sig alive => (JobControl.kill s jid sig alive).state
  | .opSigchld ev now => JobControl.sigchldOne s ev now

/-- True when the job found under this jid is already done or failed. -/
def jidTerminalB (s : JCState) (jid : Int) : Bool :=
  match JobControl.by_jid s jid with
  | some pr => isTerminal pr.status
  | none => false

/-- True when the row under this pid is already done or failed. -/
def pidTerminalB (s : JCState) (p : Int) : Bool :=
  match statusOfPid s p with
  | some st => isTerminal st
  | none => false

/-- The pid a child event is about. -/
def evPid : ChildEvent → Int
  | .exited pid _ => pid
  | .signaled pid _ => pid
  | .stoppedEv pid => pid
  | .continuedEv pid => pid

/-- Environment assumptions under which an operation is well formed:
a freshly spawned pid does not collide with an existing row, signals to
the process group of an already done or failed job are not deliverable
(the group is gone once all of its processes have terminated), and the OS
delivers no further child events for a pid whose job is already done or
failed (the child has been reaped).  The code itself checks none of this,
which is what the counterexample for this claim exploits. -/
def wfStep (s : JCState) : JCOp → Bool
  | .opRun _ _ popenRes _ _ _ =>
    match popenRes with
    | none => true
    | some (pid, _) => s.store.rows.all (fun r => r.pid != pid)
  | .opFg jid alive _ _ => !(jidTerminalB s jid && alive)
  | .opBg jid alive => !(jidTerminalB s jid && alive)
  | .opStop jid alive => !(jidTerminalB s jid && alive)
  | .opKill _ _ _ => true
  | .opSigchld ev _ => !(pidTerminalB s (evPid ev))

/-- State after a sequence of facade operations. -/
def runOps (s : JCState) : List JCOp → JCState
  | [] => s
  | op :: ops => runOps (step s op) ops

/-- Well-formedness of every operation of a sequence, each judged in the
state it executes in. -/
def wfTrace (s : JCState) : List JCOp → Bool
  | [] => true
  | op :: ops => wfStep s op && wfTrace (step s op) ops

theorem pid_unique {rows : List PCB} (h : (rows.map (fun r => r.pid)).Nodup)
    {r1 r2 : PCB} (h1 : r1 ∈ rows) (h2 : r2 ∈ rows) (hp : r1.pid = r2.pid) :
    r1 = r2 := by
  induction rows with
  | nil => cases h1
  | cons x xs ih =>
    simp only [List.map_cons, List.nodup_cons] at h
    rcases List.mem_cons.mp h1 with e1 | m1 <;> rcases List.mem_cons.mp h2 with e2 | m2
    · rw [e1, e2]
    · exfalso
      apply h.1
      have hx : x.pid = r2.pid := by rw [← e1]; exact hp
      rw [hx]
      exact List.mem_map_of_mem (fun r => r.pid) m2
    · exfalso
      apply h.1
      have hx : x.pid = r1.pid := by rw [← e2]; exact hp.symm
      rw [hx]
      exact List.mem_map_of_mem (fun r => r.pid) m1
    · exact ih h.2 m1 m2

theorem rowOf_updatePid_any (st : StoreState) (pid0 p : Int) (f : PCB → PCB)
    (hf : ∀ r, (f r).pid = r.pid) :
    rowOf (updatePid st pid0 f) p =
      (rowOf st p).map (fun r => if r.pid == pid0 then f r else r) := by
  show (st.rows.map (fun r => if r.pid == pid0 then f r else r)).find?
      (fun r => r.pid == p) =
    (st.rows.find? (fun r => r.pid == p)).map
      (fun r => if r.pid == pid0 then f r else r)
  exact find?_map_pres _ _
    (fun r => by by_cases hc : (r.pid == pid0) = true <;> simp [hc, hf]) st.rows

theorem statusOfPid_updatePid (st : StoreState) (ch : List Int) (pid0 : Int)
    (f : PCB → PCB) (hf : ∀ r, (f r).pid = r.pid) (p : Int) :
    statusOfPid ⟨updatePid st pid0 f, ch⟩ p =
      (rowOf st p).map (fun r => if r.pid == pid0 then (f r).status else r.status) := by
  show ((rowOf (updatePid st pid0 f) p).map (fun r => r.status)) = _
  rw [rowOf_updatePid_any st pid0 p f hf]
  cases rowOf st p with
  | none => rfl
  | some r =>
    by_cases h : r.pid = pid0
    · simp [h]
    · simp [h]

theorem statusOfPid_some (s : JCState) (p : Int) (a : Status)
    (ha : statusOfPid s p = some a) :
    ∃ ra, rowOf s.store p = some ra ∧ ra.status = a := by
  cases hr : rowOf s.store p with
  | none => simp [statusOfPid, hr] at ha
  | some ra =>
    refine ⟨ra, rfl, ?_⟩
    simpa [statusOfPid, hr] using ha

theorem rowOf_pid {st : StoreState} {p : Int} {ra : PCB}
    (h : rowOf st p = some ra) : ra.pid = p := by
  have h' : st.rows.find? (fun r => r.pid == p) = some ra := h
  simpa using List.find?_some h'

theorem rowOf_mem {st : StoreState} {p : Int} {ra : PCB}
    (h : rowOf st p = some ra) : ra ∈ st.rows := by
  have h' : st.rows.find? (fun r => r.pid == p) = some ra := h
  exact List.mem_of_find?_eq_some h'

theorem by_jid_mem {s : JCState} {jid : Int} {pr : PCB}
    (h : JobControl.by_jid s jid = some pr) : pr ∈ s.store.rows := by
  have h' : s.store.rows.find? (fun r => r.jid == jid) = some pr := h
  exact List.mem_of_find?_eq_some h'

theorem status_update_cases (s : JCState) (ch : List Int) (pid0 : Int)
    (f : PCB → PCB) (hf : ∀ r, (f r).pid = r.pid)
    (p : Int) (a b : Status)
    (ha : statusOfPid s p = some a)
    (hb : statusOfPid ⟨updatePid s.store pid0 f, ch⟩ p = some b) :
    a = b ∨
      (∃ ra, rowOf s.store p = some ra ∧ ra.status = a ∧ ra.pid = pid0 ∧
        (f ra).status = b) := by
  obtain ⟨ra, hrow, hsa⟩ := statusOfPid_some s p a ha
  rw [statusOfPid_updatePid s.store ch pid0 f hf p, hrow] at hb
  by_cases hc : ra.pid = pid0
  · right
    refine ⟨ra, hrow, hsa, hc, ?_⟩
    simpa [hc] using hb
  · left
    simp [hc] at hb
    rw [← hsa]
    exact hb

theorem statusEdge_terminal_false (a b : Status) (hT : isTerminal a = true) :
    statusEdge a b = false := by
  cases a <;> cases b <;> first | rfl | (cases hT)

theorem edge_to_stopped (a : Status) (hT : isTerminal a = false) :
    a = Status.stopped ∨ statusEdge a Status.stopped = true := by
  cases a with
  | running => exact Or.inr rfl
  | stopped => exact Or.inl rfl
  | done => exact Bool.noConfusion hT
  | failed => exact Bool.noConfusion hT

theorem edge_to_running (a : Status) (hT : isTerminal a = false) :
    a = Status.running ∨ statusEdge a Status.running = true := by
  cases a with
  | running => exact Or.inl rfl
  | stopped => exact Or.inr rfl
  | done => exact Bool.noConfusion hT
  | failed => exact Bool.noConfusion hT

theorem edge_to_terminal (a b : Status) (hTa : isTerminal a = false)
    (hTb : isTerminal b = true) : statusEdge a b = true := by
  cases a <;> cases b <;>
    first
      | rfl
      | exact Bool.noConfusion hTa
      | exact Bool.noConfusion hTb

theorem step_status_edge (s : JCState) (op : JCOp)
    (hnd : (s.store.rows.map (fun r => r.pid)).Nodup)
    (hwf : wfStep s op = true) (p : Int) (a b : Status)
    (ha : statusOfPid s p = some a)
    (hb : statusOfPid (step s op) p = some b) :
    a = b ∨ statusEdge a b = true := by
  cases op with
  | opKill jid sig alive =>
    have hs : step s (.opKill jid sig alive) = s := by
      cases hj : JobControl.by_jid s jid <;> cases alive <;>
        simp [step, JobControl.kill, hj]
    rw [hs, ha] at hb
    exact Or.inl (Option.some.inj hb)
  | opStop jid alive =>
    cases hj : JobControl.by_jid s jid with
    | none =>
      have hs : step s (.opStop jid alive) = s := by
        simp [step, JobControl.stop, hj]
      rw [hs, ha] at hb
      exact Or.inl (Option.some.inj hb)
    | some pr =>
      cases alive with
      | false =>
        have hs : step s (.opStop jid false) = s := by
          simp [step, JobControl.stop, hj]
        rw [hs, ha] at hb
        exact Or.inl (Option.some.inj hb)
      | true =>
        have hs : step s (.opStop jid true) =
            ⟨updatePid s.store pr.pid (setStatus .stopped), s.children⟩ := by
          simp [step, JobControl.stop, hj]
        rw [hs] at hb
        rcases status_update_cases s s.children pr.pid (setStatus .stopped)
            (fun r => rfl) p a b ha hb with hab | ⟨ra, hrow, hsa, hpid, hfb⟩
        · exact Or.inl hab
        · have hra : ra = pr :=
            pid_unique hnd (rowOf_mem hrow) (by_jid_mem hj) hpid
          have hterm : isTerminal pr.status = false := by
            have hjt : jidTerminalB s jid = isTerminal pr.status := by
              simp [jidTerminalB, hj]
            simp [wfStep, hjt] at hwf
            exact hwf
          have hTa : isTerminal a = false := by
            rw [← hsa, hra]; exact hterm
          have hbv : Status.stopped = b := hfb
          rw [← hbv]
          exact edge_to_stopped a hTa
  | opBg jid alive =>
    cases hj : JobControl.by_jid s jid with
    | none =>
      have hs : step s (.opBg jid alive) = s := by
        simp [step, JobControl.bg, hj]
      rw [hs, ha] at hb
      exact Or.inl (Option.some.inj hb)
    | some pr =>
      cases alive with
      | false =>
        have hs : step s (.opBg jid false) = s := by
          simp [step, JobControl.bg, hj]
        rw [hs, ha] at hb
        exact Or.inl (Option.some.inj hb)
      | true =>
        have hs : step s (.opBg jid true) =
            ⟨updatePid s.store pr.pid (setStatus .running), s.children⟩ := by
          simp [step, JobControl.bg, hj]
        rw [hs] at hb
        rcases status_update_cases s s.children pr.pid (setStatus .running)
            (fun r => rfl) p a b ha hb with hab | ⟨ra, hrow, hsa, hpid, hfb⟩
        · exact Or.inl hab
        · have hra : ra = pr :=
            pid_unique hnd (rowOf_mem hrow) (by_jid_mem hj) hpid
          have hterm : isTerminal pr.status = false := by
            have hjt : jidTerminalB s jid = isTerminal pr.status := by
              simp [jidTerminalB, hj]
            simp [wfStep, hjt] at hwf
            exact hwf
          have hTa : isTerminal a = false := by
            rw [← hsa, hra]; exact hterm
          have hbv : Status.running = b := hfb
          rw [← hbv]
          exact edge_to_running a hTa
  | opFg jid alive rc now =>
    cases hj : JobControl.by_jid s jid with
    | none =>
      have hs : step s (.opFg jid alive rc now) = s := by
        simp [step, JobControl.fg, hj]
      rw [hs, ha] at hb
      exact Or.inl (Option.some.inj hb)
    | some pr =>
      cases hc : s.children.contains pr.pid with
      | false =>
        have hc' : pr.pid ∉ s.children := by simpa using hc
        have hs : step s (.opFg jid alive rc now) = s := by
          simp [step, JobControl.fg, hj, hc']
        rw [hs, ha] at hb
        exact Or.inl (Option.some.inj hb)
      | true =>
        have hc' : pr.pid ∈ s.children := by simpa using hc
        cases alive with
        | false =>
          have hs : step s (.opFg jid false rc now) = s := by
            simp [step, JobControl.fg, hj, hc']
          rw [hs, ha] at hb
          exact Or.inl (Option.some.inj hb)
        | true =>
          have hs : step s (.opFg jid true rc now) =
              ⟨updatePid s.store pr.pid
                (setStatusEndExit (if rc == 0 then Status.done else Status.failed)
                  now rc), s.children⟩ := by
            simp [step, JobControl.fg, hj, hc']
          rw [hs] at hb
          rcases status_update_cases s s.children pr.pid
              (setStatusEndExit (if rc == 0 then Status.done else Status.failed)
                now rc)
              (fun r => rfl) p a b ha hb with hab | ⟨ra, hrow, hsa, hpid, hfb⟩
          · exact Or.inl hab
          · have hra : ra = pr :=
              pid_unique hnd (rowOf_mem hrow) (by_jid_mem hj) hpid
            have hterm : isTerminal pr.status = false := by
              have hjt : jidTerminalB s jid = isTerminal pr.status := by
                simp [jidTerminalB, hj]
              simp [wfStep, hjt] at hwf
              exact hwf
            have hTa : isTerminal a = false := by
              rw [← hsa, hra]; exact hterm
            have hTb : isTerminal b = true := by
              rw [← hfb]
              by_cases h0 : (rc == 0) = true <;>
                simp [setStatusEndExit, h0, isTerminal]
            exact Or.inr (edge_to_terminal a b hTa hTb)
  | opSigchld ev now =>
    cases ev with
    | exited pid rc =>
      rcases status_update_cases s (s.children.filter (fun c => c != pid)) pid
          (setStatusEndExit (if rc == 0 then Status.done else Status.failed) now rc)
          (fun r => rfl) p a b ha hb with hab | ⟨ra, hrow, hsa, hpid, hfb⟩
      · exact Or.inl hab
      · have hpp : p = pid := by rw [← rowOf_pid hrow]; exact hpid
        have hTa : isTerminal a = false := by
          have hpt : pidTerminalB s pid = isTerminal a := by
            rw [← hpp]; simp [pidTerminalB, ha]
          simp [wfStep, evPid, hpt] at hwf
          exact hwf
        have hTb : isTerminal b = true := by
          rw [← hfb]
          by_cases h0 : (rc == 0) = true <;>
            simp [setStatusEndExit, h0, isTerminal]
        exact Or.inr (edge_to_terminal a b hTa hTb)
    | signaled pid sg =>
      rcases status_update_cases s (s.children.filter (fun c => c != pid)) pid
          (setStatusEndNotes .failed now (s!"killed by signal {sg}"))
          (fun r => rfl) p a b ha hb with hab | ⟨ra, hrow, hsa, hpid, hfb⟩
      · exact Or.inl hab
      · have hpp : p = pid := by rw [← rowOf_pid hrow]; exact hpid
        have hTa : isTerminal a = false := by
          have hpt : pidTerminalB s pid = isTerminal a := by
            rw [← hpp]; simp [pidTerminalB, ha]
          simp [wfStep, evPid, hpt] at hwf
          exact hwf
        have hbv : Status.failed = b := hfb
        exact Or.inr (edge_to_terminal a b hTa (by rw [← hbv]; rfl))
    | stoppedEv pid =>
      rcases status_update_cases s s.children pid (setStatus .stopped)
          (fun r => rfl) p a b ha hb with hab | ⟨ra, hrow, hsa, hpid, hfb⟩
      · exact Or.inl hab
      · have hpp : p = pid := by rw [← rowOf_pid hrow]; exact hpid
        have hTa : isTerminal a = false := by
          have hpt : pidTerminalB s pid = isTerminal a := by
            rw [← hpp]; simp [pidTerminalB, ha]
          simp [wfStep, evPid, hpt] at hwf
          exact hwf
        have hbv : Status.stopped = b := hfb
        rw [← hbv]
        exact edge_to_stopped a hTa
    | continuedEv pid =>
      rcases status_update_cases s s.children pid (setStatus .running)
          (fun r => rfl) p a b ha hb with hab | ⟨ra, hrow, hsa, hpid, hfb⟩
      · exact Or.inl hab
      · have hpp : p = pid := by rw [← rowOf_pid hrow]; exact hpid
        have hTa : isTerminal a = false := by
          have hpt : pidTerminalB s pid = isTerminal a := by
            rw [← hpp]; simp [pidTerminalB, ha]
          simp [wfStep, evPid, hpt] at hwf
          exact hwf
        have hbv : Status.running = b := hfb
        rw [← hbv]
        exact edge_to_running a hTa
  | opRun argv bg popenRes rc t0 t1 =>
    left
    obtain ⟨ra, hrow, hsa⟩ := statusOfPid_some s p a ha
    cases he : argv.isEmpty with
    | true =>
      have hs : step s (.opRun argv bg popenRes rc t0 t1) = s := by
        simp [step, JobControl.run, he]
      rw [hs, ha] at hb
      exact Option.some.inj hb
    | false =>
      cases popenRes with
      | none =>
        have hs : step s (.opRun argv bg none rc t0 t1) = s := by
          simp [step, JobControl.run, he]
        rw [hs, ha] at hb
        exact Option.some.inj hb
      | some pp =>
        obtain ⟨pid, pgid⟩ := pp
        have hall : ∀ r ∈ s.store.rows, (r.pid != pid) = true := by
          intro r hr
          exact List.all_eq_true.mp hwf r hr
        have hany : (s.store.rows.any (fun r => r.pid == pid)) = false := by
          cases hA : s.store.rows.any (fun r => r.pid == pid) with
          | false => rfl
          | true =>
            obtain ⟨r, hrm, hrp⟩ := List.any_eq_true.mp hA
            have hne := hall r hrm
            have hre : r.pid = pid := by simpa using hrp
            simp [hre] at hne
        have happ : rowOf ⟨s.store.seqV + 1, s.store.rows ++
            [⟨pid, s.store.seqV + 1, pgid, String.intercalate " " argv, .running,
              !bg, t0, none, none, none⟩]⟩ p = some ra := by
          show (s.store.rows ++ _).find? (fun r => r.pid == p) = some ra
          rw [List.find?_append]
          have hrow' : s.store.rows.find? (fun r => r.pid == p) = some ra := hrow
          rw [hrow']
          rfl
        have hfresh : (ra.pid == pid) = false := by
          have hne := hall ra (rowOf_mem hrow)
          simpa using hne
        cases bg with
        | true =>
          have hs : step s (.opRun argv true (some (pid, pgid)) rc t0 t1) =
              ⟨⟨s.store.seqV + 1, s.store.rows ++
                [⟨pid, s.store.seqV + 1, pgid, String.intercalate " " argv,
                  .running, !true, t0, none, none, none⟩]⟩,
                s.children ++ [pid]⟩ := by
            simp [step, JobControl.run, he, ProcessStore.next_jid,
              ProcessStore.upsert, hany]
          rw [hs] at hb
          rw [show statusOfPid ⟨⟨s.store.seqV + 1, s.store.rows ++
              [⟨pid, s.store.seqV + 1, pgid, String.intercalate " " argv,
                .running, !true, t0, none, none, none⟩]⟩, s.children ++ [pid]⟩ p =
              (rowOf ⟨s.store.seqV + 1, s.store.rows ++
                [⟨pid, s.store.seqV + 1, pgid, String.intercalate " " argv,
                  .running, !true, t0, none, none, none⟩]⟩ p).map
                (fun r => r.status) from rfl, happ] at hb
          rw [← hsa]
          exact Option.some.inj hb
        | false =>
          have hs : step s (.opRun argv false (some (pid, pgid)) rc t0 t1) =
              ⟨updatePid ⟨s.store.seqV + 1, s.store.rows ++
                [⟨pid, s.store.seqV + 1, pgid, String.intercalate " " argv,
                  .running, !false, t0, none, none, none⟩]⟩ pid
                (setStatusEndExit (if rc == 0 then Status.done else Status.failed)
                  t1 rc), s.children ++ [pid]⟩ := by
            simp [step, JobControl.run, he, ProcessStore.next_jid,
              ProcessStore.upsert, hany]
          rw [hs] at hb
          have hrw := statusOfPid_updatePid
            ⟨s.store.seqV + 1, s.store.rows ++
              [⟨pid, s.store.seqV + 1, pgid, String.intercalate " " argv,
                .running, !false, t0, none, none, none⟩]⟩
            (s.children ++ [pid]) pid
            (setStatusEndExit (if rc == 0 then Status.done else Status.failed)
              t1 rc)
            (fun r => rfl) p
          rw [hrw, happ] at hb
          have hfreshP : ¬ ra.pid = pid := by simpa using hfresh
          simp [hfreshP] at hb
          rw [← hsa]
          exact hb

theorem rowOf_updatePid_some (st : StoreState) (pid0 p : Int) (f : PCB → PCB)
    (hf : ∀ r, (f r).pid = r.pid) (ra : PCB) (h : rowOf st p = some ra) :
    rowOf (updatePid st pid0 f) p =
      some (if (ra.pid == pid0) = true then f ra else ra) := by
  rw [rowOf_updatePid_any st pid0 p f hf, h]
  rfl

theorem rowOf_upsert_some (st : StoreState) (pcb : PCB) (p : Int) (ra : PCB)
    (h : rowOf st p = some ra) :
    ∃ rm, rowOf (ProcessStore.upsert st pcb) p = some rm := by
  unfold ProcessStore.upsert
  cases hA : st.rows.any (fun r => r.pid == pcb.pid) with
  | true =>
    simp only [hA, if_true]
    refine ⟨upsertRow pcb ra, ?_⟩
    show (st.rows.map (upsertRow pcb)).find? (fun r => r.pid == p) = _
    rw [find?_map_pres (upsertRow pcb) (fun r => r.pid == p)
      (fun r => by
        show ((upsertRow pcb r).pid == p) = (r.pid == p)
        unfold upsertRow
        split <;> rfl) st.rows]
    rw [show st.rows.find? (fun r => r.pid == p) = some ra from h]
    rfl
  | false =>
    simp only [hA, Bool.false_eq_true, if_false]
    refine ⟨ra, ?_⟩
    show (st.rows ++ [pcb]).find? (fun r => r.pid == p) = some ra
    rw [List.find?_append,
      show st.rows.find? (fun r => r.pid == p) = some ra from h]
    rfl

theorem step_row_present (s : JCState) (op : JCOp) (p : Int) (ra : PCB)
    (hrow : rowOf s.store p = some ra) :
    ∃ rb, rowOf (step s op).store p = some rb := by
  cases op with
  | opKill jid sig alive =>
    refine ⟨ra, ?_⟩
    have hs : (step s (.opKill jid sig alive)).store = s.store := by
      cases hj : JobControl.by_jid s jid <;> cases alive <;>
        simp [step, JobControl.kill, hj]
    rw [hs]; exact hrow
  | opStop jid alive =>
    cases hj : JobControl.by_jid s jid with
    | none =>
      refine ⟨ra, ?_⟩
      have hs : (step s (.opStop jid alive)).store = s.store := by
        simp [step, JobControl.stop, hj]
      rw [hs]; exact hrow
    | some pr =>
      cases alive with
      | false =>
        refine ⟨ra, ?_⟩
        have hs : (step s (.opStop jid false)).store = s.store := by
          simp [step, JobControl.stop, hj]
        rw [hs]; exact hrow
      | true =>
        have hs : (step s (.opStop jid true)).store =
            updatePid s.store pr.pid (setStatus .stopped) := by
          simp [step, JobControl.stop, hj]
        rw [hs]
        exact ⟨_, rowOf_updatePid_some s.store pr.pid p (setStatus .stopped)
          (fun r => rfl) ra hrow⟩
  | opBg jid alive =>
    cases hj : JobControl.by_jid s jid with
    | none =>
      refine ⟨ra, ?_⟩
      have hs : (step s (.opBg jid alive)).store = s.store := by
        simp [step, JobControl.bg, hj]
      rw [hs]; exact hrow
    | some pr =>
      cases alive with
      | false =>
        refine ⟨ra, ?_⟩
        have hs : (step s (.opBg jid false)).store = s.store := by
          simp [step, JobControl.bg, hj]
        rw [hs]; exact hrow
      | true =>
        have hs : (step s (.opBg jid true)).store =
            updatePid s.store pr.pid (setStatus .running) := by
          simp [step, JobControl.bg, hj]
        rw [hs]
        exact ⟨_, rowOf_updatePid_some s.store pr.pid p (setStatus .running)
          (fun r => rfl) ra hrow⟩
  | opFg jid alive rc now =>
    cases hj : JobControl.by_jid s jid with
    | none =>
      refine ⟨ra, ?_⟩
      have hs : (step s (.opFg jid alive rc now)).store = s.store := by
        simp [step, JobControl.fg, hj]
      rw [hs]; exact hrow
    | some pr =>
      cases hc : s.children.contains pr.pid with
      | false =>
        refine ⟨ra, ?_⟩
        have hc' : pr.pid ∉ s.children := by simpa using hc
        have hs : (step s (.opFg jid alive rc now)).store = s.store := by
          simp [step, JobControl.fg, hj, hc']
        rw [hs]; exact hrow
      | true =>
        have hc' : pr.pid ∈ s.children := by simpa using hc
        cases alive with
        | false =>
          refine ⟨ra, ?_⟩
          have hs : (step s (.opFg jid false rc now)).store = s.store := by
            simp [step, JobControl.fg, hj, hc']
          rw [hs]; exact hrow
        | true =>
          have hs : (step s (.opFg jid true rc now)).store =
              updatePid s.store pr.pid
                (setStatusEndExit
                  (if rc == 0 then Status.done else Status.failed) now rc) := by
            simp [step, JobControl.fg, hj, hc']
          rw [hs]
          exact ⟨_, rowOf_updatePid_some s.store pr.pid p
            (setStatusEndExit (if rc == 0 then Status.done else Status.failed)
              now rc) (fun r => rfl) ra hrow⟩
  | opSigchld ev now =>
    cases ev with
    | exited pid rc =>
      exact ⟨_, rowOf_updatePid_some s.store pid p
        (setStatusEndExit (if rc == 0 then Status.done else Status.failed) now rc)
        (fun r => rfl) ra hrow⟩
    | signaled pid sg =>
      exact ⟨_, rowOf_updatePid_some s.store pid p
        (setStatusEndNotes .failed now (s!"killed by signal {sg}"))
        (fun r => rfl) ra hrow⟩
    | stoppedEv pid =>
      exact ⟨_, rowOf_updatePid_some s.store pid p (setStatus .stopped)
        (fun r => rfl) ra hrow⟩
    | continuedEv pid =>
      exact ⟨_, rowOf_updatePid_some s.store pid p (setStatus .running)
        (fun r => rfl) ra hrow⟩
  | opRun argv bg popenRes rc t0 t1 =>
    cases he : argv.isEmpty with
    | true =>
      refine ⟨ra, ?_⟩
      have hs : (step s (.opRun argv bg popenRes rc t0 t1)).store = s.store := by
        simp [step, JobControl.run, he]
      rw [hs]; exact hrow
    | false =>
      cases popenRes with
      | none =>
        refine ⟨ra, ?_⟩
        have hs : (step s (.opRun argv bg none rc t0 t1)).store = s.store := by
          simp [step, JobControl.run, he]
        rw [hs]; exact hrow
      | some pp =>
        obtain ⟨pid, pgid⟩ := pp
        have hmid := rowOf_upsert_some ⟨s.store.seqV + 1, s.store.rows⟩
          ⟨pid, s.store.seqV + 1, pgid, String.intercalate " " argv, .running,
            !bg, t0, none, none, none⟩ p ra hrow
        obtain ⟨rm, hrm⟩ := hmid
        cases bg with
        | true =>
          refine ⟨rm, ?_⟩
          have hs : (step s (.opRun argv true (some (pid, pgid)) rc t0 t1)).store =
              ProcessStore.upsert ⟨s.store.seqV + 1, s.store.rows⟩
                ⟨pid, s.store.seqV + 1, pgid, String.intercalate " " argv,
                  .running, !true, t0, none, none, none⟩ := by
            simp [step, JobControl.run, he, ProcessStore.next_jid]
          rw [hs]; exact hrm
        | false =>
          have hs : (step s (.opRun argv false (some (pid, pgid)) rc t0 t1)).store =
              updatePid (ProcessStore.upsert ⟨s.store.seqV + 1, s.store.rows⟩
                ⟨pid, s.store.seqV + 1, pgid, String.intercalate " " argv,
                  .running, !false, t0, none, none, none⟩) pid
                (setStatusEndExit
                  (if rc == 0 then Status.done else Status.failed) t1 rc) := by
            simp [step, JobControl.run, he, ProcessStore.next_jid]
          rw [hs]
          exact ⟨_, rowOf_updatePid_some _ pid p
            (setStatusEndExit (if rc == 0 then Status.done else Status.failed)
              t1 rc) (fun r => rfl) rm hrm⟩

theorem updatePid_pids (st : StoreState) (pid0 : Int) (f : PCB → PCB)
    (hf : ∀ r, (f r).pid = r.pid) :
    (updatePid st pid0 f).rows.map (fun r => r.pid) =
      st.rows.map (fun r => r.pid) := by
  show (st.rows.map (fun r => if r.pid == pid0 then f r else r)).map
    (fun r => r.pid) = _
  rw [List.map_map]
  apply List.map_congr_left
  intro r _
  show (if (r.pid == pid0) = true then f r else r).pid = r.pid
  by_cases h : (r.pid == pid0) = true <;> simp [h, hf]

theorem upsert_pids_nodup (st : StoreState) (pcb : PCB)
    (hnd : (st.rows.map (fun r => r.pid)).Nodup) :
    ((ProcessStore.upsert st pcb).rows.map (fun r => r.pid)).Nodup := by
  unfold ProcessStore.upsert
  cases hA : st.rows.any (fun r => r.pid == pcb.pid) with
  | true =>
    simp only [hA, if_true]
    have hmm : (st.rows.map (upsertRow pcb)).map (fun r => r.pid) =
        st.rows.map (fun r => r.pid) := by
      rw [List.map_map]
      apply List.map_congr_left
      intro r _
      show (upsertRow pcb r).pid = r.pid
      unfold upsertRow
      split <;> rfl
    rw [hmm]
    exact hnd
  | false =>
    simp only [hA, Bool.false_eq_true, if_false]
    rw [List.map_append]
    have hnotin : pcb.pid ∉ st.rows.map (fun r => r.pid) := by
      intro hmem
      obtain ⟨r, hrm, hrp⟩ := List.mem_map.mp hmem
      have : st.rows.any (fun r => r.pid == pcb.pid) = true :=
        List.any_eq_true.mpr ⟨r, hrm, by simp [hrp]⟩
      rw [hA] at this
      cases this
    refine List.Nodup.append hnd (by simp) ?_
    intro x hx1 hx2
    simp only [List.map_cons, List.map_nil, List.mem_singleton] at hx2
    rw [hx2] at hx1
    exact hnotin hx1

theorem step_nodup (s : JCState) (op : JCOp)
    (hnd : (s.store.rows.map (fun r => r.pid)).Nodup) :
    ((step s op).store.rows.map (fun r => r.pid)).Nodup := by
  cases op with
  | opKill jid sig alive =>
    have hs : (step s (.opKill jid sig alive)).store = s.store := by
      cases hj : JobControl.by_jid s jid <;> cases alive <;>
        simp [step, JobControl.kill, hj]
    rw [hs]; exact hnd
  | opStop jid alive =>
    cases hj : JobControl.by_jid s jid with
    | none =>
      have hs : (step s (.opStop jid alive)).store = s.store := by
        simp [step, JobControl.stop, hj]
      rw [hs]; exact hnd
    | some pr =>
      cases alive with
      | false =>
        have hs : (step s (.opStop jid false)).store = s.store := by
          simp [step, JobControl.stop, hj]
        rw [hs]; exact hnd
      | true =>
        have hs : (step s (.opStop jid true)).store =
            updatePid s.store pr.pid (setStatus .stopped) := by
          simp [step, JobControl.stop, hj]
        rw [hs, updatePid_pids s.store pr.pid (setStatus .stopped) (fun r => rfl)]
        exact hnd
  | opBg jid alive =>
    cases hj : JobControl.by_jid s jid with
    | none =>
      have hs : (step s (.opBg jid alive)).store = s.store := by
        simp [step, JobControl.bg, hj]
      rw [hs]; exact hnd
    | some pr =>
      cases alive with
      | false =>
        have hs : (step s (.opBg jid false)).store = s.store := by
          simp [step, JobControl.bg, hj]
        rw [hs]; exact hnd
      | true =>
        have hs : (step s (.opBg jid true)).store =
            updatePid s.store pr.pid (setStatus .running) := by
          simp [step, JobControl.bg, hj]
        rw [hs, updatePid_pids s.store pr.pid (setStatus .running) (fun r => rfl)]
        exact hnd
  | opFg jid alive rc now =>
    cases hj : JobControl.by_jid s jid with
    | none =>
      have hs : (step s (.opFg jid alive rc now)).store = s.store := by
        simp [step, JobControl.fg, hj]
      rw [hs]; exact hnd
    | some pr =>
      cases hc : s.children.contains pr.pid with
      | false =>
        have hc' : pr.pid ∉ s.children := by simpa using hc
        have hs : (step s (.opFg jid alive rc now)).store = s.store := by
          simp [step, JobControl.fg, hj, hc']
        rw [hs]; exact hnd
      | true =>
        have hc' : pr.pid ∈ s.children := by simpa using hc
        cases alive with
        | false =>
          have hs : (step s (.opFg jid false rc now)).store = s.store := by
            simp [step, JobControl.fg, hj, hc']
          rw [hs]; exact hnd
        | true =>
          have hs : (step s (.opFg jid true rc now)).store =
              updatePid s.store pr.pid
                (setStatusEndExit
                  (if rc == 0 then Status.done else Status.failed) now rc) := by
            simp [step, JobControl.fg, hj, hc']
          rw [hs, updatePid_pids s.store pr.pid
            (setStatusEndExit (if rc == 0 then Status.done else Status.failed)
              now rc) (fun r => rfl)]
          exact hnd
  | opSigchld ev now =>
    cases ev with
    | exited pid rc =>
      rw [show (step s (.opSigchld (.exited pid rc) now)).store =
        updatePid s.store pid
          (setStatusEndExit (if rc == 0 then Status.done else Status.failed)
            now rc) from rfl,
        updatePid_pids s.store pid
          (setStatusEndExit (if rc == 0 then Status.done else Status.failed)
            now rc) (fun r => rfl)]
      exact hnd
    | signaled pid sg =>
      rw [show (step s (.opSigchld (.signaled pid sg) now)).store =
        updatePid s.store pid
          (setStatusEndNotes .failed now (s!"killed by signal {sg}")) from rfl,
        updatePid_pids s.store pid
          (setStatusEndNotes .failed now (s!"killed by signal {sg}"))
          (fun r => rfl)]
      exact hnd
    | stoppedEv pid =>
      rw [show (step s (.opSigchld (.stoppedEv pid) now)).store =
        updatePid s.store pid (setStatus .stopped) from rfl,
        updatePid_pids s.store pid (setStatus .stopped) (fun r => rfl)]
      exact hnd
    | continuedEv pid =>
      rw [show (step s (.opSigchld (.continuedEv pid) now)).store =
        updatePid s.store pid (setStatus .running) from rfl,
        updatePid_pids s.store pid (setStatus .running) (fun r => rfl)]
      exact hnd
  | opRun argv bg popenRes rc t0 t1 =>
    cases he : argv.isEmpty with
    | true =>
      have hs : (step s (.opRun argv bg popenRes rc t0 t1)).store = s.store := by
        simp [step, JobControl.run, he]
      rw [hs]; exact hnd
    | false =>
      cases popenRes with
      | none =>
        have hs : (step s (.opRun argv bg none rc t0 t1)).store = s.store := by
          simp [step, JobControl.run, he]
        rw [hs]; exact hnd
      | some pp =>
        obtain ⟨pid, pgid⟩ := pp
        have hup := upsert_pids_nodup ⟨s.store.seqV + 1, s.store.rows⟩
          ⟨pid, s.store.seqV + 1, pgid, String.intercalate " " argv, .running,
            !bg, t0, none, none, none⟩ hnd
        cases bg with
        | true =>
          have hs : (step s (.opRun argv true (some (pid, pgid)) rc t0 t1)).store =
              ProcessStore.upsert ⟨s.store.seqV + 1, s.store.rows⟩
                ⟨pid, s.store.seqV + 1, pgid, String.intercalate " " argv,
                  .running, !true, t0, none, none, none⟩ := by
            simp [step, JobControl.run, he, ProcessStore.next_jid]
          rw [hs]
          exact hup
        | false =>
          have hs : (step s (.opRun argv false (some (pid, pgid)) rc t0 t1)).store =
              updatePid (ProcessStore.upsert ⟨s.store.seqV + 1, s.store.rows⟩
                ⟨pid, s.store.seqV + 1, pgid, String.intercalate " " argv,
                  .running, !false, t0, none, none, none⟩) pid
                (setStatusEndExit
                  (if rc == 0 then Status.done else Status.failed) t1 rc) := by
            simp [step, JobControl.run, he, ProcessStore.next_jid]
          rw [hs, updatePid_pids _ pid
            (setStatusEndExit (if rc == 0 then Status.done else Status.failed)
              t1 rc) (fun r => rfl)]
          exact hup

theorem step_keeps_terminal (s : JCState) (op : JCOp)
    (hnd : (s.store.rows.map (fun r => r.pid)).Nodup)
    (hwf : wfStep s op = true) (p : Int) (a : Status)
    (ha : statusOfPid s p = some a) (hT : isTerminal a = true) :
    statusOfPid (step s op) p = some a := by
  obtain ⟨ra, hrow, hsa⟩ := statusOfPid_some s p a ha
  obtain ⟨rb, hrb⟩ := step_row_present s op p ra hrow
  have hb : statusOfPid (step s op) p = some rb.status := by
    simp [statusOfPid, hrb]
  rcases step_status_edge s op hnd hwf p a rb.status ha hb with hab | hedge
  · rw [hb, ← hab]
  · rw [statusEdge_terminal_false a rb.status hT] at hedge
    cases hedge

theorem runOps_keeps_terminal (ops : List JCOp) :
    ∀ s p a, (s.store.rows.map (fun r => r.pid)).Nodup →
      wfTrace s ops = true →
      statusOfPid s p = some a → isTerminal a = true →
      statusOfPid (runOps s ops) p = some a := by
  induction ops with
  | nil =>
    intro s p a _ _ ha _
    simpa [runOps] using ha
  | cons op ops ih =>
    intro s p a hnd hwf ha hT
    rw [show wfTrace s (op :: ops) = (wfStep s op && wfTrace (step s op) ops)
      from rfl, Bool.and_eq_true] at hwf
    have ha' := step_keeps_terminal s op hnd hwf.1 p a ha hT
    have hnd' := step_nodup s op hnd
    have := ih (step s op) p a hnd' hwf.2 ha' hT
    simpa [runOps] using this

/-- Claim C3 amended: under the environment assumptions of wfStep (pids of
new children are fresh, signals to the process group of a done or failed
job fail with ProcessLookupError, and no child event arrives for an
already reaped job), every status change made by any facade operation
(run, fg, bg, stop, kill, SIGCHLD reaping) follows an edge of
Running to Stopped, Stopped to Running, or Running or Stopped to Done or
Failed, and a done or failed row keeps its status over any well-formed
operation sequence.  Without these assumptions the claim is false: stop
and bg do not check the current status, so a done job whose process group
id can still be signalled is re-marked stopped or running (see the
counterexample). -/
theorem status_transitions_amended :
    (∀ s op p a b, (s.store.rows.map (fun r => r.pid)).Nodup →
      wfStep s op = true →
      statusOfPid s p = some a → statusOfPid (step s op) p = some b →
      a = b ∨ statusEdge a b = true)
    ∧ (∀ s ops p a, (s.store.rows.map (fun r => r.pid)).Nodup →
      wfTrace s ops = true →
      statusOfPid s p = some a → isTerminal a = true →
      statusOfPid (runOps s ops) p = some a) :=
  ⟨fun s op p a b hnd hwf ha hb => step_status_edge s op hnd hwf p a b ha hb,
   fun s ops p a hnd hwf ha hT => runOps_keeps_terminal ops s p a hnd hwf ha hT⟩

/-- Concrete state for the C3 witness: job 1, pid 6, already done. -/
def s3w : JCState :=
  ⟨⟨1, [⟨6, 1, 6, "sleep 100", Status.done, false, 0, some 1, some 0, none⟩]⟩, []⟩

/-- Witness for the amended C3: over a well-formed sequence (stop and bg
whose killpg fails, a kill, and a SIGCHLD stop event for an unrelated
pid), the done status of pid 6 survives. -/
theorem status_transitions_amended_witness :
    statusOfPid (runOps s3w
      [JCOp.opStop 1 false, JCOp.opBg 1 false, JCOp.opKill 1 15 true,
        JCOp.opSigchld (ChildEvent.stoppedEv 99) 7]) 6 = some Status.done :=
  status_transitions_amended.2 s3w
    [JCOp.opStop 1 false, JCOp.opBg 1 false, JCOp.opKill 1 15 true,
      JCOp.opSigchld (ChildEvent.stoppedEv 99) 7] 6 Status.done
    (by decide) (by decide) (by decide) (by decide)

/-- Concrete state for the C3 counterexample: job 1, pid 6, already done. -/
def s3c : JCState :=
  ⟨⟨1, [⟨6, 1, 6, "sleep 100", Status.done, false, 0, some 1, some 0, none⟩]⟩, []⟩

/-- Claim C3 counterexample: the status field of a done job does not stay
done: JobControl.stop on job 1 of s3c, when os.killpg still delivers to
the recorded process group id (a live grandchild or a reused pgid), marks
the done job stopped again.  stop reads the row regardless of its status
and updates it whenever killpg does not raise. -/
theorem stop_on_done_job_restops :
    statusOfPid s3c 6 = some Status.done ∧
    statusOfPid (JobControl.stop s3c 1 true).state 6 = some Status.stopped := by
  refine ⟨?_, ?_⟩ <;> decide

/-- File open modes of the redirection handles in Repl.py. -/
inductive FMode where
  | read
  | write
  | append
deriving DecidableEq, Repr

/-- Result of handle_redirections: the argv with redirection tokens
stripped, the winning stdin file, the winning stdout file together with
its append flag (the Python code returns the stdout handle and the append
flag of the last > or >> processed), and every (file, mode) pair opened in
order of occurrence (the code opens each redirection target as it scans,
even when a later redirection overrides the handle). -/
structure RedirOut where
  argv : List String
  stdin : Option String
  stdout : Option (String × Bool)
  opens : List (String × FMode)
deriving DecidableEq, Repr

/-- handle_redirections of Repl.py.  The loop walks the token list left to
right; each operator consumes the immediately following token as its
filename (del argv of both, continue at the same index), and raises
ValueError when the operator is the last remaining token.  A later
redirection of the same stream overwrites the earlier handle, which the
recursion expresses by preferring the recursive result. -/
def handle_redirections : List String → Except String RedirOut
  | [] => .ok ⟨[], none, none, []⟩
  | tok :: rest =>
    if tok = ">" then
      match rest with
      | [] => .error "syntax error near unexpected token newline after >"
      | f :: rest2 =>
        match handle_redirections rest2 with
        | .error e => .error e
        | .ok r => .ok ⟨r.argv, r.stdin, some (r.stdout.getD (f, false)),
            (f, .write) :: r.opens⟩
    else if tok = ">>" then
      match rest with
      | [] => .error "syntax error near unexpected token newline after >>"
      | f :: rest2 =>
        match handle_redirections rest2 with
        | .error e => .error e
        | .ok r => .ok ⟨r.argv, r.stdin, some (r.stdout.getD (f, true)),
            (f, .append) :: r.opens⟩
    else if tok = "<" then
      match rest with
      | [] => .error "syntax error near unexpected token newline after <"
      | f :: rest2 =>
        match handle_redirections rest2 with
        | .error e => .error e
        | .ok r => .ok ⟨r.argv, some (r.stdin.getD f), r.stdout,
            (f, .read) :: r.opens⟩
    else
      match handle_redirections rest with
      | .error e => .error e
      | .ok r => .ok ⟨tok :: r.argv, r.stdin, r.stdout, r.opens⟩

/-- The three redirection operator tokens. -/
def isRedirOp (t : String) : Bool := t == "<" || t == ">" || t == ">>"

/-- The file mode the specification assigns to each operator. -/
def modeOf (t : String) : FMode :=
  if t == "<" then .read else if t == ">" then .write else .append

/-- Spec-level description of redirection stripping (specification 4.2,
step 1): strip each redirection operator together with its following
filename token in order of occurrence, recording the (file, mode) pairs
with the mode matching the operator; fail when an operator is examined
with no token following it. -/
def stripRedirs : List String → Option (List String × List (String × FMode))
  | [] => some ([], [])
  | [t] => if isRedirOp t then none else some ([t], [])
  | t :: f :: rest =>
    if isRedirOp t then
      (stripRedirs rest).map (fun pr => (pr.1, (f, modeOf t) :: pr.2))
    else
      (stripRedirs (f :: rest)).map (fun pr => (t :: pr.1, pr.2))

theorem getLastD_cons_ne {α : Type} (a : α) (l : List α) (d d2 : α)
    (h : l ≠ []) : (a :: l).getLastD d = l.getLastD d2 := by
  cases l with
  | nil => cases h rfl
  | cons x xs =>
    simp only [List.getLastD_eq_getLast?, List.getLast?_cons_cons]
    cases hxs : (x :: xs).getLast? with
    | none => simp [List.getLast?_eq_none_iff] at hxs
    | some y => rfl

/-- Claim C6 amended: handle_redirections strips each <, >, >> operator
together with its following filename token in order of occurrence, with
matching open modes (read, truncate-write, append), exactly as the
spec-level scanner stripRedirs describes; it fails with a syntax error
exactly when the scan meets an operator with no token after it.  That
condition implies the last token of the argv is a redirection operator,
but not conversely: an operator that is consumed as the filename of the
operator immediately before it raises no error. -/
theorem handle_redirections_spec : ∀ argv : List String,
    (∀ r, handle_redirections argv = .ok r →
      stripRedirs argv = some (r.argv, r.opens)) ∧
    (∀ e, handle_redirections argv = .error e →
      stripRedirs argv = none ∧ isRedirOp (argv.getLastD "") = true)
  | [] => by
    constructor
    · intro r hr
      rw [show handle_redirections [] = .ok ⟨[], none, none, []⟩ from rfl] at hr
      injection hr with h2
      subst h2
      rfl
    · intro e hr
      rw [show handle_redirections [] = .ok ⟨[], none, none, []⟩ from rfl] at hr
      simp at hr
  | [t] => by
    by_cases h1 : t = ">"
    · subst h1
      constructor
      · intro r hr
        rw [show handle_redirections [">"] =
          .error "syntax error near unexpected token newline after >" from by
            simp [handle_redirections]] at hr
        simp at hr
      · intro e hr
        refine ⟨by simp [stripRedirs, isRedirOp], by simp [isRedirOp]⟩
    · by_cases h2 : t = ">>"
      · subst h2
        constructor
        · intro r hr
          rw [show handle_redirections [">>"] =
            .error "syntax error near unexpected token newline after >>" from by
              simp [handle_redirections]] at hr
          simp at hr
        · intro e hr
          refine ⟨by simp [stripRedirs, isRedirOp], by simp [isRedirOp]⟩
      · by_cases h3 : t = "<"
        · subst h3
          constructor
          · intro r hr
            rw [show handle_redirections ["<"] =
              .error "syntax error near unexpected token newline after <" from by
                simp [handle_redirections]] at hr
            simp at hr
          · intro e hr
            refine ⟨by simp [stripRedirs, isRedirOp], by simp [isRedirOp]⟩
        · constructor
          · intro r hr
            rw [show handle_redirections [t] = .ok ⟨[t], none, none, []⟩ from by
              simp [handle_redirections, h1, h2, h3]] at hr
            injection hr with h4
            subst h4
            simp [stripRedirs, isRedirOp, h1, h2, h3]
          · intro e hr
            rw [show handle_redirections [t] = .ok ⟨[t], none, none, []⟩ from by
              simp [handle_redirections, h1, h2, h3]] at hr
            simp at hr
  | t :: f :: rest => by
    by_cases h1 : t = ">"
    · subst h1
      cases hrec : handle_redirections rest with
      | error e0 =>
        have hne : rest ≠ [] := by
          intro hr0
          rw [hr0, show handle_redirections [] = .ok ⟨[], none, none, []⟩
            from rfl] at hrec
          simp at hrec
        obtain ⟨hnone, hlast⟩ := (handle_redirections_spec rest).2 e0 hrec
        constructor
        · intro r hr
          rw [show handle_redirections (">" :: f :: rest) = .error e0 from by
            simp [handle_redirections, hrec]] at hr
          simp at hr
        · intro e hr
          refine ⟨by simp [stripRedirs, isRedirOp, hnone], ?_⟩
          rw [getLastD_cons_ne ">" (f :: rest) "" "" (by simp),
            getLastD_cons_ne f rest "" "" hne]
          exact hlast
      | ok rsub =>
        have hstrip := (handle_redirections_spec rest).1 rsub hrec
        constructor
        · intro r hr
          rw [show handle_redirections (">" :: f :: rest) =
            .ok ⟨rsub.argv, rsub.stdin, some (rsub.stdout.getD (f, false)),
              (f, FMode.write) :: rsub.opens⟩ from by
                simp [handle_redirections, hrec]] at hr
          injection hr with h4
          subst h4
          simp [stripRedirs, isRedirOp, hstrip, modeOf]
        · intro e hr
          rw [show handle_redirections (">" :: f :: rest) =
            .ok ⟨rsub.argv, rsub.stdin, some (rsub.stdout.getD (f, false)),
              (f, FMode.write) :: rsub.opens⟩ from by
                simp [handle_redirections, hrec]] at hr
          simp at hr
    · by_cases h2 : t = ">>"
      · subst h2
        cases hrec : handle_redirections rest with
        | error e0 =>
          have hne : rest ≠ [] := by
            intro hr0
            rw [hr0, show handle_redirections [] = .ok ⟨[], none, none, []⟩
              from rfl] at hrec
            simp at hrec
          obtain ⟨hnone, hlast⟩ := (handle_redirections_spec rest).2 e0 hrec
          constructor
          · intro r hr
            rw [show handle_redirections (">>" :: f :: rest) = .error e0 from by
              simp [handle_redirections, hrec]] at hr
            simp at hr
          · intro e hr
            refine ⟨by simp [stripRedirs, isRedirOp, hnone], ?_⟩
            rw [getLastD_cons_ne ">>" (f :: rest) "" "" (by simp),
              getLastD_cons_ne f rest "" "" hne]
            exact hlast
        | ok rsub =>
          have hstrip := (handle_redirections_spec rest).1 rsub hrec
          constructor
          · intro r hr
            rw [show handle_redirections (">>" :: f :: rest) =
              .ok ⟨rsub.argv, rsub.stdin, some (rsub.stdout.getD (f, true)),
                (f, FMode.append) :: rsub.opens⟩ from by
                  simp [handle_redirections, hrec]] at hr
            injection hr with h4
            subst h4
            simp [stripRedirs, isRedirOp, hstrip, modeOf]
          · intro e hr
            rw [show handle_redirections (">>" :: f :: rest) =
              .ok ⟨rsub.argv, rsub.stdin, some (rsub.stdout.getD (f, true)),
                (f, FMode.append) :: rsub.opens⟩ from by
                  simp [handle_redirections, hrec]] at hr
            simp at hr
      · by_cases h3 : t = "<"
        · subst h3
          cases hrec : handle_redirections rest with
          | error e0 =>
            have hne : rest ≠ [] := by
              intro hr0
              rw [hr0, show handle_redirections [] = .ok ⟨[], none, none, []⟩
                from rfl] at hrec
              simp at hrec
            obtain ⟨hnone, hlast⟩ := (handle_redirections_spec rest).2 e0 hrec
            constructor
            · intro r hr
              rw [show handle_redirections ("<" :: f :: rest) = .error e0 from by
                simp [handle_redirections, hrec]] at hr
              simp at hr
            · intro e hr
              refine ⟨by simp [stripRedirs, isRedirOp, hnone], ?_⟩
              rw [getLastD_cons_ne "<" (f :: rest) "" "" (by simp),
                getLastD_cons_ne f rest "" "" hne]
              exact hlast
          | ok rsub =>
            have hstrip := (handle_redirections_spec rest).1 rsub hrec
            constructor
            · intro r hr
              rw [show handle_redirections ("<" :: f :: rest) =
                .ok ⟨rsub.argv, some (rsub.stdin.getD f), rsub.stdout,
                  (f, FMode.read) :: rsub.opens⟩ from by
                    simp [handle_redirections, hrec]] at hr
              injection hr with h4
              subst h4
              simp [stripRedirs, isRedirOp, hstrip, modeOf]
            · intro e hr
              rw [show handle_redirections ("<" :: f :: rest) =
                .ok ⟨rsub.argv, some (rsub.stdin.getD f), rsub.stdout,
                  (f, FMode.read) :: rsub.opens⟩ from by
                    simp [handle_redirections, hrec]] at hr
              simp at hr
        · cases hrec : handle_redirections (f :: rest) with
          | error e0 =>
            obtain ⟨hnone, hlast⟩ := (handle_redirections_spec (f :: rest)).2 e0 hrec
            constructor
            · intro r hr
              rw [show handle_redirections (t :: f :: rest) = .error e0 from by
                simp [handle_redirections, h1, h2, h3, hrec]] at hr
              simp at hr
            · intro e hr
              refine ⟨by simp [stripRedirs, isRedirOp, h1, h2, h3, hnone], ?_⟩
              rw [getLastD_cons_ne t (f :: rest) "" "" (by simp)]
              exact hlast
          | ok rsub =>
            have hstrip := (handle_redirections_spec (f :: rest)).1 rsub hrec
            constructor
            · intro r hr
              rw [show handle_redirections (t :: f :: rest) =
                .ok ⟨t :: rsub.argv, rsub.stdin, rsub.stdout, rsub.opens⟩ from by
                  simp [handle_redirections, h1, h2, h3, hrec]] at hr
              injection hr with h4
              subst h4
              simp [stripRedirs, isRedirOp, h1, h2, h3, hstrip]
            · intro e hr
              rw [show handle_redirections (t :: f :: rest) =
                .ok ⟨t :: rsub.argv, rsub.stdin, rsub.stdout, rsub.opens⟩ from by
                  simp [handle_redirections, h1, h2, h3, hrec]] at hr
              simp at hr

/-- Claim C6 counterexample: on the argv cmd > > the last token is a
redirection operator, yet handle_redirections succeeds: the second > is
consumed as the filename of the first (a file literally named > is opened
for truncate-write), so the parse does not fail exactly when a
redirection operator is the last token. -/
theorem redir_trailing_op_no_error :
    isRedirOp ((["cmd", ">", ">"] : List String).getLastD "") = true ∧
    handle_redirections ["cmd", ">", ">"] =
      .ok ⟨["cmd"], none, some (">", false), [(">", FMode.write)]⟩ := by
  refine ⟨?_, ?_⟩ <;> decide

/-- Witness for the amended C6 at a concrete argv with one redirection of
each direction. -/
theorem handle_redirections_spec_witness :
    stripRedirs ["cmd", "<", "in", ">", "out"] =
      some (["cmd"], [("in", FMode.read), ("out", FMode.write)]) :=
  (handle_redirections_spec ["cmd", "<", "in", ">", "out"]).1
    ⟨["cmd"], some "in", some ("out", false),
      [("in", FMode.read), ("out", FMode.write)]⟩ (by decide)

/-- Outcome of subprocess.run inside run_external: a completed process
with exit code and captured text, or the exception raised. -/
inductive SpawnOutcome where
  | completed (rc : Int) (stdoutText stderrText : String)
  | permissionError
  | fileNotFound
deriving DecidableEq, Repr

/-- OS environment of external_runner.py: shutil.which, os.path.exists
and the behaviour of subprocess.run on a resolved argv. -/
structure ExecEnv where
  which : String → Option String
  pathExists : String → Bool
  runResult : List String → SpawnOutcome

/-- NOT_FOUND constant of external_runner.py. -/
def NOT_FOUND : Int := 127

/-- NOT_EXEC constant of external_runner.py. -/
def NOT_EXEC : Int := 126

/-- resolve_executable of external_runner.py: a command containing a
slash (the Python test is the single character slash in cmd, expressed
here over the character list) is treated as a direct path, anything else
is searched on PATH. -/
def resolve_executable (env : ExecEnv) (cmd : String) : Option String :=
  if cmd.toList.contains '/' then (if env.pathExists cmd then some cmd else none)
  else env.which cmd

/-- run_external of external_runner.py.  Returns (exit code, stdout text,
stderr text); an empty argv raises IndexError on argv[0].  When capture
is false the streams go to the terminal and empty strings are returned. -/
def run_external (env : ExecEnv) (argv : List String) (capture : Bool) :
    Except String (Int × String × String) :=
  match argv with
  | [] => .error "IndexError"
  | cmd :: args =>
    match resolve_executable env cmd with
    | none => .ok (NOT_FOUND, "", cmd ++ ": command not found\n")
    | some exe =>
      match env.runResult (exe :: args) with
      | .completed rc out err =>
        if capture then .ok (rc, out, err) else .ok (rc, "", "")
      | .permissionError => .ok (NOT_EXEC, "", cmd ++ ": permission denied\n")
      | .fileNotFound =>
        .ok (NOT_FOUND, "", cmd ++ ": no such file or directory\n")

/-- The _BUILTINS set of Repl.py. -/
def BUILTINS : List String :=
  ["ls", "cd", "pwd", "exit", "echo", "cp", "mv", "rm", "mkdir", "crf", "run",
   "cat", "head", "tail", "alias", "unalias", "export",
   "jobs", "ps", "fg", "bg", "stop", "kill", "sleep"]

/-- OS environment of execute_pipeline: shutil.which, os.path.exists, the
pid handed out by a successful Popen (none models FileNotFoundError), and
the exit status observed by the final foreground wait. -/
structure PipeEnv where
  which : String → Option String
  pathExists : String → Bool
  popen : List String → Option Int
  waitRc : Int

/-- A spawned pipeline stage: a builtin execution unit (a thread) or an
external process with its pid. -/
inductive Spawned where
  | builtin (argv : List String)
  | external (argv : List String) (pid : Int)
deriving DecidableEq, Repr

/-- Job-registration state of the Repl job control: the next job id
counter and the registered background jobs (jid, command), newest
first. -/
structure ReplJobState where
  nextJid : Int
  jobs : List (Int × String)
deriving DecidableEq, Repr

/-- Result of the stage loop of execute_pipeline: an early return with an
exit code (1 for an empty stage, 127 for command-not-found) or normal
completion, together with the stages spawned so far. -/
inductive LoopOut where
  | earlyExit (code : Int) (spawned : List Spawned)
  | finished (spawned : List Spawned)
deriving DecidableEq, Repr

/-- The per-stage loop of execute_pipeline in Repl.py.  Each stage is
stripped of redirections (a ValueError from handle_redirections
propagates out of execute_pipeline); an empty argv returns 1 immediately;
a builtin stage starts a thread; an external stage returns 127 when
shutil.which finds nothing and the path does not exist, or when Popen
raises FileNotFoundError; otherwise the Popen object is collected.
Stages already spawned stay spawned on every early return (the code
closes some of their pipe ends but does not kill them). -/
def pipelineLoop (env : PipeEnv) : List (List String) → List Spawned →
    Except String LoopOut
  | [], acc => .ok (.finished acc)
  | raw :: restStages, acc =>
    match handle_redirections raw with
    | .error e => .error e
    | .ok r =>
      match r.argv with
      | [] => .ok (.earlyExit 1 acc)
      | cmd :: _ =>
        if BUILTINS.contains cmd then
          pipelineLoop env restStages (acc ++ [.builtin r.argv])
        else if (env.which cmd).isNone && !env.pathExists cmd then
          .ok (.earlyExit 127 acc)
        else
          match env.popen r.argv with
          | none => .ok (.earlyExit 127 acc)
          | some pid =>
            pipelineLoop env restStages (acc ++ [.external r.argv pid])

/-- The command text of a pipeline, joined with pipe bars (shlex quoting
elided). -/
def pipelineCmd (stages : List (List String)) : String :=
  String.intercalate " | " (stages.map (String.intercalate " "))

/-- Overall result of execute_pipeline: exit code, the Repl job state
after the call, and the spawned stages. -/
structure PipeResult where
  code : Int
  jobState : ReplJobState
  spawned : List Spawned
deriving DecidableEq, Repr

/-- execute_pipeline of Repl.py.  Job registration (the next_jid counter
increment and the jobs-table insertion) happens only after every stage
has spawned and only for background pipelines; every early return of the
loop skips it.  The foreground branch returns the last wait status, the
background branch registers the job and returns 0. -/
def execute_pipeline (env : PipeEnv) (stages : List (List String))
    (background : Bool) (st : ReplJobState) : Except String PipeResult :=
  match pipelineLoop env stages [] with
  | .error e => .error e
  | .ok (.earlyExit c sp) => .ok ⟨c, st, sp⟩
  | .ok (.finished sp) =>
    if background then
      .ok ⟨0, ⟨st.nextJid + 1, (st.nextJid, pipelineCmd stages) :: st.jobs⟩, sp⟩
    else
      .ok ⟨env.waitRc, st, sp⟩

/-- The stage handle a spawnable stage of the loop produces (none when
the stage makes the loop return early or raise). -/
def stageSpawn (env : PipeEnv) (raw : List String) : Option Spawned :=
  match handle_redirections raw with
  | .error _ => none
  | .ok r =>
    match r.argv with
    | [] => none
    | cmd :: _ =>
      if BUILTINS.contains cmd then some (.builtin r.argv)
      else if (env.which cmd).isNone && !env.pathExists cmd then none
      else
        match env.popen r.argv with
        | none => none
        | some pid => some (.external r.argv pid)

theorem pipelineLoop_spawns_front (env : PipeEnv) :
    ∀ (pre restStages : List (List String)) (acc : List Spawned),
      (∀ s ∈ pre, (stageSpawn env s).isSome) →
      pipelineLoop env (pre ++ restStages) acc =
        pipelineLoop env restStages (acc ++ pre.filterMap (stageSpawn env)) := by
  intro pre
  induction pre with
  | nil =>
    intro restStages acc _
    simp
  | cons s0 pre ih =>
    intro restStages acc hall
    have hs0 : (stageSpawn env s0).isSome := hall s0 (by simp)
    have htail : ∀ s ∈ pre, (stageSpawn env s).isSome := by
      intro s hs
      exact hall s (by simp [hs])
    cases hhr : handle_redirections s0 with
    | error e =>
      simp [stageSpawn, hhr] at hs0
    | ok r =>
      cases hargv : r.argv with
      | nil =>
        simp [stageSpawn, hhr, hargv] at hs0
      | cons cmd args =>
        cases hb : BUILTINS.contains cmd with
        | true =>
          have hbm : cmd ∈ BUILTINS := by simpa using hb
          have hsp : stageSpawn env s0 = some (Spawned.builtin r.argv) := by
            simp [stageSpawn, hhr, hargv, hbm]
          have hstep : pipelineLoop env ((s0 :: pre) ++ restStages) acc =
              pipelineLoop env (pre ++ restStages)
                (acc ++ [Spawned.builtin r.argv]) := by
            simp [pipelineLoop, hhr, hargv, hbm]
          rw [hstep, ih restStages (acc ++ [Spawned.builtin r.argv]) htail,
            show (s0 :: pre).filterMap (stageSpawn env) =
              Spawned.builtin r.argv :: pre.filterMap (stageSpawn env) from by
                simp [List.filterMap_cons, hsp]]
          simp
        | false =>
          have hbm : cmd ∉ BUILTINS := by simpa using hb
          cases hw : ((env.which cmd).isNone && !env.pathExists cmd) with
          | true =>
            have hnone : stageSpawn env s0 = none := by
              simp [stageSpawn, hhr, hargv, hbm, hw]
            simp [hnone] at hs0
          | false =>
            cases hp : env.popen r.argv with
            | none =>
              have hp2 : env.popen (cmd :: args) = none := by
                rw [← hargv]; exact hp
              have hnone : stageSpawn env s0 = none := by
                simp [stageSpawn, hhr, hargv, hbm, hw, hp2]
              simp [hnone] at hs0
            | some pid =>
              have hp2 : env.popen (cmd :: args) = some pid := by
                rw [← hargv]; exact hp
              have hsp : stageSpawn env s0 = some (Spawned.external r.argv pid) := by
                simp [stageSpawn, hhr, hargv, hbm, hw, hp2]
              have hstep : pipelineLoop env ((s0 :: pre) ++ restStages) acc =
                  pipelineLoop env (pre ++ restStages)
                    (acc ++ [Spawned.external r.argv pid]) := by
                simp [pipelineLoop, hhr, hargv, hbm, hw, hp2]
              rw [hstep,
                ih restStages (acc ++ [Spawned.external r.argv pid]) htail,
                show (s0 :: pre).filterMap (stageSpawn env) =
                  Spawned.external r.argv pid :: pre.filterMap (stageSpawn env)
                  from by simp [List.filterMap_cons, hsp]]
              simp

/-- Claim C1: a command that cannot be resolved to an executable yields
exit code 127 with a command-not-found diagnostic and never touches any
job state.  (a) run_external returns (127, not-found diagnostic) when
resolve_executable fails (run_external takes no job table at all).
(b) JobControl.run, when Popen raises FileNotFoundError, re-raises before
next_jid or upsert run: the state (rows, jid sequence, children cache) is
returned unchanged.  (c) execute_pipeline, on reaching an external stage
whose command neither resolves on PATH nor exists as a path, returns exit
code 127 with the Repl job state unchanged (no job id allocated, no job
record inserted) and spawns neither the failing stage nor any later
stage. -/
theorem command_not_found_no_job :
    (∀ (env : ExecEnv) (cmd : String) (args : List String) (capture : Bool),
      resolve_executable env cmd = none →
      run_external env (cmd :: args) capture =
        .ok (NOT_FOUND, "", cmd ++ ": command not found\n"))
    ∧ (∀ (s : JCState) (argv : List String) (background : Bool)
        (waitRc t0 t1 : Int), argv ≠ [] →
      JobControl.run s argv background none waitRc t0 t1 =
        ⟨.error "FileNotFoundError", s, []⟩)
    ∧ (∀ (env : PipeEnv) (pre post : List (List String))
        (bad : List String) (background : Bool) (st : ReplJobState)
        (r : RedirOut) (cmd : String) (args : List String),
      (∀ s ∈ pre, (stageSpawn env s).isSome) →
      handle_redirections bad = .ok r → r.argv = cmd :: args →
      BUILTINS.contains cmd = false →
      env.which cmd = none → env.pathExists cmd = false →
      execute_pipeline env (pre ++ bad :: post) background st =
        .ok ⟨127, st, pre.filterMap (stageSpawn env)⟩) := by
  refine ⟨?_, ?_, ?_⟩
  · intro env cmd args capture hres
    simp [run_external, hres]
  · intro s argv bg rc t0 t1 hne
    have he : argv.isEmpty = false := by
      cases argv with
      | nil => cases hne rfl
      | cons a as => rfl
    simp [JobControl.run, he]
  · intro env pre post bad bg st r cmd args hall hhr hargv hb hw hex
    have hbm : cmd ∉ BUILTINS := by simpa using hb
    have hloop : pipelineLoop env (pre ++ bad :: post) [] =
        .ok (.earlyExit 127 (pre.filterMap (stageSpawn env))) := by
      rw [pipelineLoop_spawns_front env pre (bad :: post) [] hall]
      simp [pipelineLoop, hhr, hargv, hbm, hw, hex]
    simp [execute_pipeline, hloop]

/-- Environments used by the C1 witness: nothing resolves anywhere. -/
def execEnvW : ExecEnv :=
  ⟨fun _ => none, fun _ => false, fun _ => SpawnOutcome.completed 0 "" ""⟩

/-- Pipeline environment of the C1 witness. -/
def pipeEnvW : PipeEnv := ⟨fun _ => none, fun _ => false, fun _ => none, 0⟩

/-- Empty job-control state of the C1 witness. -/
def jcW : JCState := ⟨⟨0, []⟩, []⟩

/-- Repl job state of the C1 witness. -/
def rjW : ReplJobState := ⟨1, []⟩

/-- Witness for C1 on the unresolvable command of the specification. -/
theorem command_not_found_no_job_witness :
    run_external execEnvW ("__no_such_cmd__" :: []) false =
      .ok (NOT_FOUND, "", "__no_such_cmd__" ++ ": command not found\n") ∧
    JobControl.run jcW ["__no_such_cmd__"] false none 0 0 0 =
      ⟨.error "FileNotFoundError", jcW, []⟩ ∧
    execute_pipeline pipeEnvW ([] ++ ["__no_such_cmd__"] :: []) false rjW =
      .ok ⟨127, rjW, [].filterMap (stageSpawn pipeEnvW)⟩ :=
  ⟨command_not_found_no_job.1 execEnvW "__no_such_cmd__" [] false (by decide),
   command_not_found_no_job.2.1 jcW ["__no_such_cmd__"] false 0 0 0 (by decide),
   command_not_found_no_job.2.2 pipeEnvW [] [] ["__no_such_cmd__"] false rjW
     ⟨["__no_such_cmd__"], none, none, []⟩ "__no_such_cmd__" []
     (by simp) (by decide) rfl (by decide) rfl rfl⟩

/-- Environment for claim C7: the external commands a and b resolve on
PATH and Popen hands out pid 41. -/
def pipeEnv7 : PipeEnv :=
  ⟨fun c => if c = "a" || c = "b" then some ("/bin/" ++ c) else none,
   fun _ => false, fun _ => some 41, 0⟩

/-- Claim C7 counterexample: the pipeline a | | b (stage list
[[a], [], [b]]) returns exit code 1, but the part of the claim that no
stage of the whole pipeline is started is false: stage a was already
spawned (as pid 41) before the empty stage was examined, and it is left
running. -/
theorem empty_stage_spawns_earlier_stage :
    execute_pipeline pipeEnv7 [["a"], [], ["b"]] false ⟨1, []⟩ =
      .ok ⟨1, ⟨1, []⟩, [Spawned.external ["a"] 41]⟩ ∧
    [Spawned.external ["a"] 41] ≠ ([] : List Spawned) := by
  refine ⟨?_, ?_⟩ <;> decide

/-- Claim C7 amended: a pipeline containing a stage whose argv is empty
after redirection stripping returns exit code 1 as a syntax error with
the Repl job state unchanged (no job id allocated, no job registered),
and no stage from the empty stage onward is spawned; stages before the
empty stage have already been spawned and remain in the collected list
(they are not killed). -/
theorem empty_stage_amended (env : PipeEnv) (pre post : List (List String))
    (bad : List String) (background : Bool) (st : ReplJobState) (r : RedirOut)
    (hall : ∀ s ∈ pre, (stageSpawn env s).isSome)
    (hhr : handle_redirections bad = .ok r) (hargv : r.argv = []) :
    execute_pipeline env (pre ++ bad :: post) background st =
      .ok ⟨1, st, pre.filterMap (stageSpawn env)⟩ := by
  have hloop : pipelineLoop env (pre ++ bad :: post) [] =
      .ok (.earlyExit 1 (pre.filterMap (stageSpawn env))) := by
    rw [pipelineLoop_spawns_front env pre (bad :: post) [] hall]
    simp [pipelineLoop, hhr, hargv]
  simp [execute_pipeline, hloop]

/-- Witness for the amended C7: the pipeline a | with an empty second
stage returns 1, keeps the job state, and only stage a is spawned. -/
theorem empty_stage_amended_witness :
    execute_pipeline pipeEnv7 ([["a"]] ++ [] :: []) false ⟨1, []⟩ =
      .ok ⟨1, ⟨1, []⟩, [["a"]].filterMap (stageSpawn pipeEnv7)⟩ :=
  empty_stage_amended pipeEnv7 [["a"]] [] [] false ⟨1, []⟩
    ⟨[], none, none, []⟩ (by decide) (by decide) rfl
